import Mathlib

/-
Shallow embedding of the volume ray-caster (src/src/volume/volume.cpp and
src/src/render/renderer.cpp).  C++ `float` arithmetic is modelled over ℝ;
`int` over ℤ; `size_t` index checks over ℤ with the note that casting a
negative 64-bit int to size_t yields a value at least 2^63, hence at least
any realistic buffer size, so `size_t(i) >= m_data.size()` is modelled as
`i < 0 ∨ i ≥ size`.
-/

noncomputable section

namespace VolVis

/-- C++ `static_cast<int>` on a float: truncation toward zero. -/
def itrunc (r : ℝ) : ℤ := if 0 ≤ r then ⌊r⌋ else -⌊-r⌋

/-- glm::vec3. -/
structure Vec3 where
  x : ℝ
  y : ℝ
  z : ℝ

/-- glm::vec4 (r, g, b stored in x, y, z; alpha in w). -/
structure Vec4 where
  x : ℝ
  y : ℝ
  z : ℝ
  w : ℝ

def vzero3 : Vec3 := ⟨0, 0, 0⟩

def vzero4 : Vec4 := ⟨0, 0, 0, 0⟩

def vadd (u v : Vec3) : Vec3 := ⟨u.x + v.x, u.y + v.y, u.z + v.z⟩

def vneg (v : Vec3) : Vec3 := ⟨-v.x, -v.y, -v.z⟩

def vsmul (c : ℝ) (v : Vec3) : Vec3 := ⟨c * v.x, c * v.y, c * v.z⟩

def vdot (u v : Vec3) : ℝ := u.x * v.x + u.y * v.y + u.z * v.z

/-- glm::length. -/
def vlen (v : Vec3) : ℝ := Real.sqrt (v.x * v.x + v.y * v.y + v.z * v.z)

/-- glm::normalize. -/
def vnormalize (v : Vec3) : Vec3 := vsmul (1 / vlen v) v

/-- The rgb part of a vec4, as `glm::vec3(v)` extracts it. -/
def rgb (v : Vec4) : Vec3 := ⟨v.x, v.y, v.z⟩

/-- volume::InterpolationMode (volume.h): the three enumerators used by
`Volume::getVoxelInterpolate`. -/
inductive InterpolationMode where
  | NearestNeighbour
  | Linear
  | Cubic

/-- volume::Volume.  `data` holds the uint16 scalars (row-major, x fastest);
`a` is the cubic-kernel sharpness `Volume::a`, a class constant declared in
volume.h, which is not among the repository's files — kept as a field,
the grid-point claims hold for every value of it. -/
structure Volume where
  dimx : ℤ
  dimy : ℤ
  dimz : ℤ
  data : List ℕ
  interpolationMode : InterpolationMode
  a : ℝ

/-- `Volume::maximum()`: maximum element of the data (0 for empty data,
where the C++ leaves the cached field unset). -/
def Volume.maximum (v : Volume) : ℝ := (v.data.foldl Nat.max 0 : ℕ)

/-- `Volume::getVoxel` (volume.cpp:78): computes the row-major linear index
and checks only that index against the data size (the `i < 0` test in the
source is dead since `i` is size_t; a negative int wraps to at least 2^63
and fails `i >= size`, modelled as returning 0 for a negative index). -/
def getVoxel (v : Volume) (x y z : ℤ) : ℝ :=
  let i := x + v.dimx * (y + v.dimy * z)
  if 0 ≤ i ∧ i < (v.data.length : ℤ) then ((v.data.getD i.toNat 0 : ℕ) : ℝ) else 0

/-- `Volume::getVoxelNN` (volume.cpp:108): bounds check on `coord + 0.5`,
then round-half-up via `static_cast<int>(f + 0.5f)`. -/
def getVoxelNN (v : Volume) (c : Vec3) : ℝ :=
  if c.x + 0.5 < 0 ∨ c.y + 0.5 < 0 ∨ c.z + 0.5 < 0 ∨
     (v.dimx : ℝ) ≤ c.x + 0.5 ∨ (v.dimy : ℝ) ≤ c.y + 0.5 ∨ (v.dimz : ℝ) ≤ c.z + 0.5 then 0
  else getVoxel v (itrunc (c.x + 0.5)) (itrunc (c.y + 0.5)) (itrunc (c.z + 0.5))

/-- `Volume::linearInterpolate` (volume.cpp:146). -/
def linearInterpolate (g0 g1 factor : ℝ) : ℝ := (1 - factor) * g0 + factor * g1

/-- `Volume::getVoxelLinearInterpolate` (volume.cpp:121): rejects
coordinates outside `[0, dim - 1)`, then 7 pairwise linear blends. -/
def getVoxelLinearInterpolate (v : Volume) (c : Vec3) : ℝ :=
  if c.x < 0 ∨ c.y < 0 ∨ c.z < 0 ∨
     ((v.dimx : ℝ) - 1) ≤ c.x ∨ ((v.dimy : ℝ) - 1) ≤ c.y ∨ ((v.dimz : ℝ) - 1) ≤ c.z then 0
  else
    let x := itrunc c.x
    let y := itrunc c.y
    let z := itrunc c.z
    let fx := c.x - (x : ℝ)
    let fy := c.y - (y : ℝ)
    let fz := c.z - (z : ℝ)
    let t0 := linearInterpolate (getVoxel v x y z) (getVoxel v (x + 1) y z) fx
    let t1 := linearInterpolate (getVoxel v x (y + 1) z) (getVoxel v (x + 1) (y + 1) z) fx
    let t2 := linearInterpolate (getVoxel v x y (z + 1)) (getVoxel v (x + 1) y (z + 1)) fx
    let t3 := linearInterpolate (getVoxel v x (y + 1) (z + 1)) (getVoxel v (x + 1) (y + 1) (z + 1)) fx
    let t4 := linearInterpolate t0 t1 fy
    let t5 := linearInterpolate t2 t3 fy
    linearInterpolate t4 t5 fz

/-- `Volume::weight` (volume.cpp:152): the cubic-convolution kernel h. -/
def weight (a x : ℝ) : ℝ :=
  let x := |x|
  if x < 1 then (a + 2) * x ^ 3 - (a + 3) * x ^ 2 + 1
  else if x < 2 then a * x ^ 3 - 5 * a * x ^ 2 + 8 * a * x - 4 * a
  else 0

/-- `Volume::cubicInterpolate` (volume.cpp:166). -/
def cubicInterpolate (a g0 g1 g2 g3 factor : ℝ) : ℝ :=
  weight a (1 + factor) * g0 + weight a factor * g1 +
    weight a (1 - factor) * g2 + weight a (2 - factor) * g3

/-- `Volume::bicubicInterpolateXY` (volume.cpp:172): four cubic passes along
y (at x offsets -1..2, each x recomputed as `int(coord.x + i)`), then one
along x. -/
def bicubicInterpolateXY (v : Volume) (cx cy : ℝ) (z : ℤ) : ℝ :=
  let y := itrunc cy
  let fx := cx - (itrunc cx : ℝ)
  let fy := cy - (y : ℝ)
  let value (i : ℤ) : ℝ :=
    let x := itrunc (cx + (i : ℝ))
    cubicInterpolate v.a (getVoxel v x (y - 1) z) (getVoxel v x y z)
      (getVoxel v x (y + 1) z) (getVoxel v x (y + 2) z) fy
  cubicInterpolate v.a (value (-1)) (value 0) (value 1) (value 2) fx

/-- `Volume::getVoxelTriCubicInterpolate` (volume.cpp:200): rejects
coordinates outside `[0, dim - 1)`, four bicubic slices along z (each z
recomputed as `int(coord.z + i)`), one cubic pass along z, negative result
clamped to 0. -/
def getVoxelTriCubicInterpolate (v : Volume) (c : Vec3) : ℝ :=
  if c.x < 0 ∨ c.y < 0 ∨ c.z < 0 ∨
     ((v.dimx : ℝ) - 1) ≤ c.x ∨ ((v.dimy : ℝ) - 1) ≤ c.y ∨ ((v.dimz : ℝ) - 1) ≤ c.z then 0
  else
    let z := itrunc c.z
    let fz := c.z - (z : ℝ)
    let value (i : ℤ) : ℝ := bicubicInterpolateXY v c.x c.y (itrunc (c.z + (i : ℝ)))
    let result := cubicInterpolate v.a (value (-1)) (value 0) (value 1) (value 2) fz
    if result < 0 then 0 else result

/-- `Volume::getVoxelInterpolate` (volume.cpp:88): dispatch on the
interpolation mode (the enum has exactly the three cases, so the throwing
default is unreachable). -/
def getVoxelInterpolate (v : Volume) (c : Vec3) : ℝ :=
  match v.interpolationMode with
  | .NearestNeighbour => getVoxelNN v c
  | .Linear => getVoxelLinearInterpolate v c
  | .Cubic => getVoxelTriCubicInterpolate v c

/-- render::RenderMode (renderer.h): the six strategies of the switch in
`Renderer::render`. -/
inductive RenderMode where
  | RenderSlicer
  | RenderMIP
  | RenderComposite
  | RenderIso
  | RenderTF2D
  | RenderTF2DV2

/-- render::RenderConfig (renderer.h, fields as read by renderer.cpp). -/
structure RenderConfig where
  resX : ℤ
  resY : ℤ
  renderMode : RenderMode
  isoValue : ℝ
  volumeShading : Bool
  tfColorMap : List Vec4
  tfColorMapIndexStart : ℝ
  tfColorMapIndexRange : ℝ
  TF2DColor : Vec4
  TF2DIntensity : ℝ
  TF2DRadius : ℝ
  TF2DV2Intensity_0 : ℝ
  TF2DV2Radius_0 : ℝ
  TF2DV2Color_0 : Vec4
  TF2DV2Intensity_1 : ℝ
  TF2DV2Radius_1 : ℝ
  TF2DV2Color_1 : Vec4

/-- render::Ray: origin, direction and the mutable tmin/tmax interval. -/
structure Ray where
  origin : Vec3
  direction : Vec3
  tmin : ℝ
  tmax : ℝ

/-- render::Bounds: `lowerUpper[0]` is the lower corner, `lowerUpper[1]` the
upper. -/
structure Bounds where
  lower : Vec3
  upper : Vec3

/-- volume::GradientVoxel: direction and magnitude. -/
structure GradientVoxel where
  dir : Vec3
  magnitude : ℝ

/-- volume::GradientVolume: opaque read-only collaborator; only
`getGradientVoxel` is called by the renderer. -/
structure GradientVolume where
  getGradientVoxel : Vec3 → GradientVoxel

/-- render::RayTraceCamera, an external collaborator: `generateRay` maps the
normalized pixel position to a ray, `position` and `forward` are read by the
renderer. -/
structure RayTraceCamera where
  generateRay : ℝ → ℝ → Ray
  position : Vec3
  forward : Vec3

/-- The renderer's state: the referenced volume, gradient volume and camera
plus the current config (renderer.cpp:19). -/
structure Renderer where
  volume : Volume
  gradientVolume : GradientVolume
  camera : RayTraceCamera
  config : RenderConfig

/-- `origin + t * direction`. -/
def rayAt (ray : Ray) (t : ℝ) : Vec3 := vadd ray.origin (vsmul t ray.direction)

/-- `Renderer::getTFValue` (renderer.cpp:331): maps the value into the 1D
table's index range and clamps to the last valid index.  The C++ cast of a
negative float to size_t is undefined behaviour; on the target it produces a
huge value that the `min` clamps to `size - 1`, which is what is modelled
here. -/
def getTFValue (r : Renderer) (val : ℝ) : Vec4 :=
  let range01 := (val - r.config.tfColorMapIndexStart) / r.config.tfColorMapIndexRange
  let n := r.config.tfColorMap.length
  let f := range01 * (n : ℝ)
  let i : ℕ := if f < 0 then n - 1 else min (⌊f⌋.toNat) (n - 1)
  r.config.tfColorMap.getD i vzero4

/-- `Renderer::computePhongShading` (renderer.cpp:314). -/
def computePhongShading (color : Vec3) (gradient : GradientVoxel) (L V : Vec3) : Vec3 :=
  let ka : ℝ := 0.1
  let kd : ℝ := 0.7
  let ks : ℝ := 0.2
  let eps : ℝ := 0.0001
  let theta := Real.arccos (vdot gradient.dir (vneg L) / (gradient.magnitude * vlen L + eps))
  let phi := Real.arccos (vdot gradient.dir V / (gradient.magnitude * vlen V + eps)) - theta
  vsmul (ka + kd * Real.cos theta + ks * Real.cos phi ^ (100 : ℕ)) color

/-- `inTriangle` (renderer.cpp:344). -/
def inTriangle (leftIntensity midIntensity rightIntensity intensity magnitude : ℝ) : Bool :=
  if intensity ≤ leftIntensity ∨ rightIntensity ≤ intensity ∨ magnitude ≤ 0 then false
  else if intensity = midIntensity then true
  else if intensity < midIntensity then
    decide (255 * ((midIntensity - intensity) / (midIntensity - leftIntensity)) < magnitude)
  else
    decide (255 * ((intensity - midIntensity) / (rightIntensity - midIntensity)) < magnitude)

/-- `linearOpacity` (renderer.cpp:367). -/
def linearOpacity (intensityCenter radius intensity magnitude : ℝ) : ℝ :=
  let horizontalWidth := radius * (magnitude / 255)
  1 - |intensityCenter - intensity| / horizontalWidth

/-- `Renderer::getTF2DOpacity` (renderer.cpp:383). -/
def getTF2DOpacity (r : Renderer) (intensity gradientMagnitude : ℝ) : ℝ :=
  if inTriangle (r.config.TF2DIntensity - r.config.TF2DRadius) r.config.TF2DIntensity
      (r.config.TF2DIntensity + r.config.TF2DRadius) intensity gradientMagnitude then
    linearOpacity r.config.TF2DIntensity r.config.TF2DRadius intensity gradientMagnitude
  else 0

/-- `Renderer::getTF2DV2Opacity` (renderer.cpp:477), with the written but
unreachable max branch kept as in the source. -/
def getTF2DV2Opacity (r : Renderer) (intensity gradientMagnitude : ℝ) : ℝ :=
  let inTriangle_0 := inTriangle (r.config.TF2DV2Intensity_0 - r.config.TF2DV2Radius_0)
    r.config.TF2DV2Intensity_0 (r.config.TF2DV2Intensity_0 + r.config.TF2DV2Radius_0)
    intensity gradientMagnitude
  let inTriangle_1 := inTriangle (r.config.TF2DV2Intensity_1 - r.config.TF2DV2Radius_1)
    r.config.TF2DV2Intensity_1 (r.config.TF2DV2Intensity_1 + r.config.TF2DV2Radius_1)
    intensity gradientMagnitude
  if inTriangle_0 then
    linearOpacity r.config.TF2DV2Intensity_0 r.config.TF2DV2Radius_0 intensity gradientMagnitude
  else if inTriangle_1 then
    linearOpacity r.config.TF2DV2Intensity_1 r.config.TF2DV2Radius_1 intensity gradientMagnitude
  else if inTriangle_0 && inTriangle_1 then
    max (linearOpacity r.config.TF2DV2Intensity_0 r.config.TF2DV2Radius_0 intensity gradientMagnitude)
      (linearOpacity r.config.TF2DV2Intensity_1 r.config.TF2DV2Radius_1 intensity gradientMagnitude)
  else 0

/-- `Renderer::getTF2DV2Color` (renderer.cpp:516), with the written but
unreachable larger-opacity branch kept as in the source. -/
def getTF2DV2Color (r : Renderer) (intensity gradientMagnitude : ℝ) : Vec4 :=
  let inTriangle_0 := inTriangle (r.config.TF2DV2Intensity_0 - r.config.TF2DV2Radius_0)
    r.config.TF2DV2Intensity_0 (r.config.TF2DV2Intensity_0 + r.config.TF2DV2Radius_0)
    intensity gradientMagnitude
  let inTriangle_1 := inTriangle (r.config.TF2DV2Intensity_1 - r.config.TF2DV2Radius_1)
    r.config.TF2DV2Intensity_1 (r.config.TF2DV2Intensity_1 + r.config.TF2DV2Radius_1)
    intensity gradientMagnitude
  if inTriangle_0 then r.config.TF2DV2Color_0
  else if inTriangle_1 then r.config.TF2DV2Color_1
  else if inTriangle_0 && inTriangle_1 then
    if linearOpacity r.config.TF2DV2Intensity_1 r.config.TF2DV2Radius_1 intensity gradientMagnitude <
       linearOpacity r.config.TF2DV2Intensity_0 r.config.TF2DV2Radius_0 intensity gradientMagnitude then
      r.config.TF2DV2Color_0
    else r.config.TF2DV2Color_1
  else vzero4

/-- `Renderer::instersectRayVolumeBounds` (renderer.cpp:406): the slab test.
Returns the hit flag and the ray as left by the function — the source writes
`ray.tmin`/`ray.tmax` only on the success path, so the miss paths return the
ray unchanged. -/
def instersectRayVolumeBounds (ray : Ray) (bounds : Bounds) : Bool × Ray :=
  let invx := 1 / ray.direction.x
  let invy := 1 / ray.direction.y
  let invz := 1 / ray.direction.z
  let txmin := ((if invx < 0 then bounds.upper.x else bounds.lower.x) - ray.origin.x) * invx
  let txmax := ((if invx < 0 then bounds.lower.x else bounds.upper.x) - ray.origin.x) * invx
  let tymin := ((if invy < 0 then bounds.upper.y else bounds.lower.y) - ray.origin.y) * invy
  let tymax := ((if invy < 0 then bounds.lower.y else bounds.upper.y) - ray.origin.y) * invy
  if tymax < txmin ∨ txmax < tymin then (false, ray)
  else
    let t1min := max txmin tymin
    let t1max := min txmax tymax
    let tzmin := ((if invz < 0 then bounds.upper.z else bounds.lower.z) - ray.origin.z) * invz
    let tzmax := ((if invz < 0 then bounds.lower.z else bounds.upper.z) - ray.origin.z) * invz
    if tzmax < t1min ∨ t1max < tzmin then (false, ray)
    else (true, { ray with tmin := max t1min tzmin, tmax := min t1max tzmax })

/-- Number of iterations of `for (float t = a; t <= b; t += s)` (equally of
the backward loop `for (float t = b; t >= a; t -= s)`), for s > 0: indices
k = 0..⌊(b - a)/s⌋. -/
def stepCount (a b s : ℝ) : ℕ := if b < a then 0 else (⌊(b - a) / s⌋).toNat + 1

/-- `Renderer::traceRaySlice` (renderer.cpp:145). -/
def traceRaySlice (r : Renderer) (ray : Ray) (volumeCenter planeNormal : Vec3) : Vec4 :=
  let t := vdot (vadd volumeCenter (vneg ray.origin)) planeNormal / vdot ray.direction planeNormal
  let val := getVoxelInterpolate r.volume (rayAt ray t)
  let g := max (val / r.volume.maximum) 0
  ⟨g, g, g, 1⟩

/-- The running maximum of `Renderer::traceRayMIP`'s forward scan
(renderer.cpp:158): samples at `tmin + k * sampleStep` while the position is
at most `tmax`. -/
def mipMaxForward (r : Renderer) (ray : Ray) (sampleStep : ℝ) : ℝ :=
  (List.range (stepCount ray.tmin ray.tmax sampleStep)).foldl
    (fun maxVal (k : ℕ) => max (getVoxelInterpolate r.volume (rayAt ray (ray.tmin + (k : ℝ) * sampleStep))) maxVal) 0

/-- `Renderer::traceRayMIP` (renderer.cpp:158). -/
def traceRayMIP (r : Renderer) (ray : Ray) (sampleStep : ℝ) : Vec4 :=
  let m := mipMaxForward r ray sampleStep / r.volume.maximum
  ⟨m, m, m, 1⟩

/-- Modelled from the spec: "stepping backward from `tmax` to `tmin` in the
same increments" — the same running-maximum loop as `traceRayMIP` but with
samples at `tmax - k * sampleStep` while the position is at least `tmin`. -/
def mipMaxBackward (r : Renderer) (ray : Ray) (sampleStep : ℝ) : ℝ :=
  (List.range (stepCount ray.tmin ray.tmax sampleStep)).foldl
    (fun maxVal (k : ℕ) => max (getVoxelInterpolate r.volume (rayAt ray (ray.tmax - (k : ℝ) * sampleStep))) maxVal) 0

/-- Modelled from the spec: the backward-stepping MIP pixel color, the
normalization unchanged. -/
def traceRayMIPBackward (r : Renderer) (ray : Ray) (sampleStep : ℝ) : Vec4 :=
  let m := mipMaxBackward r ray sampleStep / r.volume.maximum
  ⟨m, m, m, 1⟩

/-- The volume sample on the ray at parameter t, as the marching loops and
the bisection take it. -/
def sampleAtT (r : Renderer) (ray : Ray) (t : ℝ) : ℝ :=
  getVoxelInterpolate r.volume (rayAt ray t)

/-- One bracket-narrowing step of `Renderer::bisectionAccuracy`
(renderer.cpp:222): move whichever end the midpoint sample says. -/
def bisectStep (r : Renderer) (ray : Ray) (isoValue : ℝ) (b : ℝ × ℝ) : ℝ × ℝ :=
  let m := (b.1 + b.2) / 2
  if sampleAtT r ray m < isoValue then (m, b.2) else (b.1, m)

/-- The early-exit test of `Renderer::bisectionAccuracy` at a bracket's
midpoint: `|sample(mid) - isoValue| < 0.0001`. -/
def bisectClose (r : Renderer) (ray : Ray) (isoValue : ℝ) (b : ℝ × ℝ) : Prop :=
  |sampleAtT r ray ((b.1 + b.2) / 2) - isoValue| < 1 / 10000

/-- The fuelled while-loop of `Renderer::bisectionAccuracy`: with fuel
`maxIterations` left and bracket (t0, t1), compute the midpoint, return it if
the early-exit test passes or this was the last permitted iteration, else
narrow the bracket and continue. -/
def bisectGo (r : Renderer) (ray : Ray) (isoValue : ℝ) : ℕ → ℝ → ℝ → ℝ
  | f + 2, t0, t1 =>
    let m := (t0 + t1) / 2
    if |sampleAtT r ray m - isoValue| < 1 / 10000 then m
    else if sampleAtT r ray m < isoValue then bisectGo r ray isoValue (f + 1) m t1
    else bisectGo r ray isoValue (f + 1) t0 m
  | _, t0, t1 => (t0 + t1) / 2

/-- `Renderer::bisectionAccuracy` (renderer.cpp:222): 500 iterations of
fuel. -/
def bisectionAccuracy (r : Renderer) (ray : Ray) (t0 t1 isoValue : ℝ) : ℝ :=
  bisectGo r ray isoValue 500 t0 t1

/-- `Renderer::traceRayISO` (renderer.cpp:179): forward scan to the first
sample strictly above the iso value; fixed hit color, Phong-shaded (after
bisection refinement when at least one prior step was taken) when volume
shading is on. -/
def traceRayISO (r : Renderer) (ray : Ray) (sampleStep : ℝ) : Vec4 :=
  let n := stepCount ray.tmin ray.tmax sampleStep
  match (List.range n).find?
      (fun (k : ℕ) => decide (r.config.isoValue < sampleAtT r ray (ray.tmin + (k : ℝ) * sampleStep))) with
  | none => vzero4
  | some k =>
    if r.config.volumeShading then
      let tk := ray.tmin + (k : ℝ) * sampleStep
      let t := if 1 ≤ k then bisectionAccuracy r ray (tk - sampleStep) tk r.config.isoValue else tk
      let pos := rayAt ray t
      let gradient := r.gradientVolume.getGradientVoxel pos
      let c := computePhongShading ⟨0.8, 0.8, 0.2⟩ gradient r.camera.position ray.direction
      ⟨c.x, c.y, c.z, 1⟩
    else ⟨0.8, 0.8, 0.2, 1⟩

/-- `Renderer::backToFrontComposite` (renderer.cpp:263): back-to-front 1D
transfer-function compositing; output alpha forced to 1. -/
def backToFrontComposite (r : Renderer) (ray : Ray) (sampleStep : ℝ) : Vec4 :=
  let n := stepCount ray.tmin ray.tmax sampleStep
  let color := (List.range n).foldl
    (fun (color : Vec3) (k : ℕ) =>
      let pos := rayAt ray (ray.tmax - (k : ℝ) * sampleStep)
      let tf := getTFValue r (getVoxelInterpolate r.volume pos)
      let current := if r.config.volumeShading then
          computePhongShading (rgb tf) (r.gradientVolume.getGradientVoxel pos)
            r.camera.position ray.direction
        else rgb tf
      vadd (vsmul tf.w current) (vsmul (1 - tf.w) color)) vzero3
  ⟨color.x, color.y, color.z, 1⟩

/-- `Renderer::traceRayComposite` (renderer.cpp:252). -/
def traceRayComposite (r : Renderer) (ray : Ray) (sampleStep : ℝ) : Vec4 :=
  backToFrontComposite r ray sampleStep

/-- `Renderer::traceRayTF2D` (renderer.cpp:285): 2D transfer function,
variant 1; output alpha forced to 1. -/
def traceRayTF2D (r : Renderer) (ray : Ray) (sampleStep : ℝ) : Vec4 :=
  let n := stepCount ray.tmin ray.tmax sampleStep
  let color := (List.range n).foldl
    (fun (color : Vec3) (k : ℕ) =>
      let pos := rayAt ray (ray.tmax - (k : ℝ) * sampleStep)
      let intensity := getVoxelInterpolate r.volume pos
      let gradient := r.gradientVolume.getGradientVoxel pos
      let opacity := getTF2DOpacity r intensity gradient.magnitude * r.config.TF2DColor.w
      let c := if r.config.volumeShading then
          computePhongShading (rgb r.config.TF2DColor) gradient r.camera.position ray.direction
        else rgb r.config.TF2DColor
      vadd (vsmul opacity c) (vsmul (1 - opacity) color)) vzero3
  ⟨color.x, color.y, color.z, 1⟩

/-- `Renderer::traceRayTF2DV2` (renderer.cpp:446): 2D transfer function,
variant 2 (no shading branch); output alpha forced to 1. -/
def traceRayTF2DV2 (r : Renderer) (ray : Ray) (sampleStep : ℝ) : Vec4 :=
  let n := stepCount ray.tmin ray.tmax sampleStep
  let color := (List.range n).foldl
    (fun (color : Vec3) (k : ℕ) =>
      let pos := rayAt ray (ray.tmax - (k : ℝ) * sampleStep)
      let intensity := getVoxelInterpolate r.volume pos
      let gradient := r.gradientVolume.getGradientVoxel pos
      let opacity0 := getTF2DV2Opacity r intensity gradient.magnitude
      let c := getTF2DV2Color r intensity gradient.magnitude
      let opacity := opacity0 * c.w
      vadd (vsmul opacity (rgb c)) (vsmul (1 - opacity) color)) vzero3
  ⟨color.x, color.y, color.z, 1⟩

/-- The volume bounds built by `Renderer::render` (renderer.cpp:69):
`{vec3(0), vec3(dims - ivec3(1))}`. -/
def renderBounds (r : Renderer) : Bounds :=
  ⟨vzero3, ⟨((r.volume.dimx - 1 : ℤ) : ℝ), ((r.volume.dimy - 1 : ℤ) : ℝ), ((r.volume.dimz - 1 : ℤ) : ℝ)⟩⟩

/-- `vec3(m_pVolume->dims()) / 2.0f` (renderer.cpp:68). -/
def volumeCenter (r : Renderer) : Vec3 :=
  ⟨(r.volume.dimx : ℝ) / 2, (r.volume.dimy : ℝ) / 2, (r.volume.dimz : ℝ) / 2⟩

/-- `-glm::normalize(m_pCamera->forward())` (renderer.cpp:67). -/
def planeNormal (r : Renderer) : Vec3 := vneg (vnormalize r.camera.forward)

/-- The per-pixel body of `Renderer::render` (renderer.cpp:92-128), identical
in the sequential and the tiled loop: generate the camera ray from the
normalized pixel position, intersect it with the volume bounds — `none` when
the ray misses (the loop `continue`s without writing) — and dispatch on the
render mode with `sampleStep = 1`. -/
def renderPixel (r : Renderer) (x y : ℕ) : Option Vec4 :=
  let px := (x : ℝ) / (r.config.resX : ℝ) * 2 - 1
  let py := (y : ℝ) / (r.config.resY : ℝ) * 2 - 1
  let p := instersectRayVolumeBounds (r.camera.generateRay px py) (renderBounds r)
  if p.1 then
    some (match r.config.renderMode with
      | .RenderSlicer => traceRaySlice r p.2 (volumeCenter r) (planeNormal r)
      | .RenderMIP => traceRayMIP r p.2 1
      | .RenderComposite => traceRayComposite r p.2 1
      | .RenderIso => traceRayISO r p.2 1
      | .RenderTF2D => traceRayTF2D r p.2 1
      | .RenderTF2DV2 => traceRayTF2DV2 r p.2 1)
  else none

/-- The framebuffer slot of pixel (x, y): `size_t(resX * y + x)`
(`Renderer::fillColor`, renderer.cpp:433). -/
def writeIndex (resX : ℤ) (x y : ℕ) : ℕ := (resX * (y : ℤ) + (x : ℤ)).toNat

/-- Process one pixel: write its color through `fillColor` when the ray hit,
leave the framebuffer unchanged when it missed. -/
def applyPixel (r : Renderer) (fb : ℕ → Vec4) (p : ℕ × ℕ) : ℕ → Vec4 :=
  match renderPixel r p.1 p.2 with
  | none => fb
  | some c => Function.update fb (writeIndex r.config.resX p.1 p.2) c

/-- The strictly sequential loop of `Renderer::render` (PARALLELISM == 0,
renderer.cpp:82): x outer, y inner, over a framebuffer just reset to black. -/
def renderSeq (r : Renderer) : ℕ → Vec4 :=
  (List.range r.config.resX.toNat).foldl
    (fun fb x => (List.range r.config.resY.toNat).foldl
      (fun fb y => applyPixel r fb (x, y)) fb)
    (fun _ => vzero4)

/-- One tile of the TBB `blocked_range2d` (rows are y in [y0, y1), cols are
x in [x0, x1)). -/
structure Tile where
  y0 : ℕ
  y1 : ℕ
  x0 : ℕ
  x1 : ℕ

/-- The tile lambda of the parallel loop (renderer.cpp:87-91): y over the
tile's rows, x over its cols. -/
def renderTile (r : Renderer) (fb : ℕ → Vec4) (t : Tile) : ℕ → Vec4 :=
  (List.range (t.y1 - t.y0)).foldl
    (fun fb j => (List.range (t.x1 - t.x0)).foldl
      (fun fb i => applyPixel r fb (t.x0 + i, t.y0 + j)) fb)
    fb

/-- Modelled from the spec: `tbb::parallel_for` over a `blocked_range2d`
partitions the full screen range into tiles and runs the tile lambda once
per tile; the tasks write disjoint framebuffer slots, so any serialization
of the tiles computes the parallel mode's framebuffer.  The tile list is
universally quantified in the equivalence theorem. -/
def renderPar (r : Renderer) (tiles : List Tile) : ℕ → Vec4 :=
  tiles.foldl (renderTile r) (fun _ => vzero4)

/-- Midpoint of a bracket. -/
def bmid (b : Real × Real) : Real := (b.1 + b.2) / 2

/-- The parametric distance at which a ray enters the [lo, hi] slab of one
axis. -/
def slabEntry (lo hi o d : Real) : Real := min ((lo - o) / d) ((hi - o) / d)

/-- The parametric distance at which a ray leaves the [lo, hi] slab of one
axis. -/
def slabExit (lo hi o d : Real) : Real := max ((lo - o) / d) ((hi - o) / d)

/-- All four components within [0, 1]. -/
def colorInUnit (c : Vec4) : Prop :=
  0 ≤ c.x ∧ c.x ≤ 1 ∧ 0 ≤ c.y ∧ c.y ≤ 1 ∧ 0 ≤ c.z ∧ c.z ≤ 1 ∧ 0 ≤ c.w ∧ c.w ≤ 1

/-- All three components within [0, 1]. -/
def rgbInUnit (c : Vec3) : Prop :=
  0 ≤ c.x ∧ c.x ≤ 1 ∧ 0 ≤ c.y ∧ c.y ≤ 1 ∧ 0 ≤ c.z ∧ c.z ≤ 1

/-- The kernel sharpness used for concrete instances (the value of
`Volume::a` lives in the missing volume.h; nothing below depends on it). -/
def aCex : ℝ := -(3 / 4)

/-- Concrete volume for the C1 counterexample: dims (2,2,2), data 0..7. -/
def c1Vol : Volume := ⟨2, 2, 2, [0, 1, 2, 3, 4, 5, 6, 7], .NearestNeighbour, aCex⟩

/-- Concrete volume for the C2 counterexample: dims (1,1,1), single voxel
100. -/
def c2Vol : Volume := ⟨1, 1, 1, [100], .NearestNeighbour, aCex⟩

/-- The spec's scenario volume: dims (2,2,2), only voxel (1,1,1) is 100. -/
def c3Vol : Volume := ⟨2, 2, 2, [0, 0, 0, 0, 0, 0, 0, 100], .NearestNeighbour, aCex⟩

/-- Volume for the C3 witness: dims (3,3,3), all voxels 7. -/
def c3wVol : Volume :=
  ⟨3, 3, 3, List.replicate 27 7, .NearestNeighbour, aCex⟩

/-- Gradient volume for concrete instances: constant direction (1,0,0),
magnitude 1. -/
def cexGradient : GradientVolume := ⟨fun _ => ⟨⟨1, 0, 0⟩, 1⟩⟩

/-- Camera for concrete instances: position (1,0,0), forward (0,0,1); the
generated ray is unused by the trace-level claims. -/
def cexCamera : RayTraceCamera := ⟨fun _ _ => ⟨vzero3, ⟨1, 1, 1⟩, 0, 0⟩, ⟨1, 0, 0⟩, ⟨0, 0, 1⟩⟩

/-- A concrete render config shared by the counterexample and witness
renderers. -/
def cfg0 : RenderConfig :=
  ⟨1, 1, .RenderMIP, 0, false, [⟨1, 1, 1, 1⟩], 0, 1, ⟨1, 1, 1, 1⟩, 100, 50,
    100, 50, ⟨1, 0, 0, 1⟩, 100, 60, ⟨0, 1, 0, 1⟩⟩

/-- Volume for the C6 counterexample: single zero voxel. -/
def c6Vol : Volume := ⟨1, 1, 1, [0], .NearestNeighbour, aCex⟩

/-- Renderer for the C6 counterexample: volume shading on, trivial volume,
1-entry transfer table (1,1,1,1). -/
def c6Renderer : Renderer :=
  ⟨c6Vol, cexGradient, cexCamera, { cfg0 with volumeShading := true }⟩

/-- Ray for the C6 counterexample: origin 0, direction (0,1,0),
tmin = tmax = 0 (a single sample). -/
def c6Ray : Ray := ⟨vzero3, ⟨0, 1, 0⟩, 0, 0⟩

/-- Volume for the C7 counterexample: dims (3,1,1), data [0,0,50],
nearest-neighbour sampling. -/
def c7Vol : Volume := ⟨3, 1, 1, [0, 0, 50], .NearestNeighbour, aCex⟩

/-- Renderer for the C7 counterexample. -/
def c7Renderer : Renderer := ⟨c7Vol, cexGradient, cexCamera, cfg0⟩

/-- Ray for the C7 counterexample: along x, tmin = 0, tmax = 1.5, so the
1.5-long interval is not an integer multiple of the unit step. -/
def c7Ray : Ray := ⟨vzero3, ⟨1, 0, 0⟩, 0, 1.5⟩

/-- Ray for the C7 witness: tmax - tmin = 2 is an exact multiple of the unit
step. -/
def c7wRay : Ray := ⟨vzero3, ⟨1, 0, 0⟩, 0, 2⟩

/-- Renderer for the C8 and C10 witnesses: variant-2 classifiers centered at
100 with radii 50 and 60 (cfg0), so (100, 255) lies inside both triangles. -/
def c8Renderer : Renderer := ⟨c2Vol, cexGradient, cexCamera, cfg0⟩

/-- Ray for the C4 witness: hits the unit box with all direction components
nonzero. -/
def c4wRay : Ray := ⟨⟨-1, 0.2, 0.2⟩, ⟨1, 0.1, 0.1⟩, 0, 0⟩

/-- Bounds for the C4 witness: the unit box. -/
def c4wBounds : Bounds := ⟨vzero3, ⟨1, 1, 1⟩⟩

/-- Renderer for the C5 witness: resolution 2 x 1. -/
def c5Renderer : Renderer := ⟨c2Vol, cexGradient, cexCamera, { cfg0 with resX := 2 }⟩

/-- Tile for the C5 witness: the whole 2 x 1 screen as one tile. -/
def c5Tile : Tile := ⟨0, 1, 0, 2⟩


theorem itrunc_intCast (n : ℤ) : itrunc ((n : ℤ) : ℝ) = n := by
  unfold itrunc
  split
  · exact Int.floor_intCast n
  · rw [show -((n : ℤ) : ℝ) = ((-n : ℤ) : ℝ) by push_cast; ring, Int.floor_intCast]
    ring

theorem itrunc_intCast_add_half (n : ℤ) (hn : 0 ≤ n) : itrunc ((n : ℝ) + 0.5) = n := by
  unfold itrunc
  rw [if_pos (by positivity)]
  rw [Int.floor_eq_iff]
  constructor
  · norm_num
  · norm_num

theorem itrunc_intCast_add (n m : ℤ) : itrunc ((n : ℝ) + (m : ℝ)) = n + m := by
  rw [show (n : ℝ) + (m : ℝ) = ((n + m : ℤ) : ℝ) by push_cast; ring, itrunc_intCast]

theorem linearInterpolate_zero (g0 g1 : ℝ) : linearInterpolate g0 g1 0 = g0 := by
  simp [linearInterpolate]

theorem weight_zero (a : ℝ) : weight a 0 = 1 := by
  norm_num [weight]

theorem weight_one (a : ℝ) : weight a 1 = 0 := by
  norm_num [weight]
  ring

theorem weight_two (a : ℝ) : weight a 2 = 0 := by
  norm_num [weight]

theorem cubicInterpolate_zero (a g0 g1 g2 g3 : ℝ) : cubicInterpolate a g0 g1 g2 g3 0 = g1 := by
  simp only [cubicInterpolate, add_zero, sub_zero]
  rw [weight_zero, weight_one, weight_two]
  ring

theorem getVoxel_nonneg (v : Volume) (x y z : ℤ) : 0 ≤ getVoxel v x y z := by
  unfold getVoxel
  dsimp only
  split
  · positivity
  · exact le_refl 0


/-- C1 (corrected): `getVoxel` never raises — it is total — but it checks
only the linearized row-major index `x + dimx * (y + dimy * z)` against the
data size, not each axis.  When that index falls outside [0, size) the
function returns 0; for every componentwise in-bounds coordinate of a
volume whose data size equals dimx * dimy * dimz it returns the stored
scalar at that coordinate.  (An out-of-bounds coordinate whose linear index
is still in range instead aliases to another voxel — see
`c1_counterexample`.) -/
theorem getVoxel_linearIndex_spec (v : Volume) (x y z : Int) :
    (Not (0 <= x + v.dimx * (y + v.dimy * z) /\
          x + v.dimx * (y + v.dimy * z) < (v.data.length : Int)) ->
      getVoxel v x y z = 0) /\
    ((0 <= x /\ x < v.dimx /\ 0 <= y /\ y < v.dimy /\ 0 <= z /\ z < v.dimz /\
      (v.data.length : Int) = v.dimx * v.dimy * v.dimz) ->
      getVoxel v x y z = ((v.data.getD (x + v.dimx * (y + v.dimy * z)).toNat 0 : Nat) : Real)) := by
  constructor
  . intro h
    unfold getVoxel
    dsimp only
    rw [if_neg h]
  . rintro (w : _ /\ _)
    obtain (a : 0 <= x) := w.1
    obtain (b : x < v.dimx) := w.2.1
    obtain (c : 0 <= y) := w.2.2.1
    obtain (d : y < v.dimy) := w.2.2.2.1
    obtain (e : 0 <= z) := w.2.2.2.2.1
    obtain (f : z < v.dimz) := w.2.2.2.2.2.1
    obtain (g : (v.data.length : Int) = v.dimx * v.dimy * v.dimz) := w.2.2.2.2.2.2
    unfold getVoxel
    dsimp only
    have hdx : 0 < v.dimx := lt_of_le_of_lt a b
    have hdy : 0 < v.dimy := lt_of_le_of_lt c d
    have hyz0 : 0 <= y + v.dimy * z := add_nonneg c (mul_nonneg hdy.le e)
    have hyz1 : y + v.dimy * z <= v.dimy * v.dimz - 1 := by
      have : v.dimy * z <= v.dimy * (v.dimz - 1) :=
        mul_le_mul_of_nonneg_left (by linarith) hdy.le
      nlinarith
    rw [if_pos]
    constructor
    . exact add_nonneg a (mul_nonneg hdx.le hyz0)
    . rw [g]
      have : v.dimx * (y + v.dimy * z) <= v.dimx * (v.dimy * v.dimz - 1) :=
        mul_le_mul_of_nonneg_left hyz1 hdx.le
      nlinarith

/-- C1 counterexample: on a (2,2,2) volume with data 0..7, the coordinate
(2,0,0) is outside [0,dim) on x, yet `getVoxel` returns the aliased stored
value 2, not 0 as the claim states. -/
theorem c1_counterexample :
    c1Vol.dimx <= 2 /\ getVoxel c1Vol 2 0 0 = 2 := by
  constructor
  . norm_num [c1Vol]
  . norm_num [getVoxel, c1Vol]
    norm_num [show Int.toNat 2 = 2 from rfl]


/-- C2 counterexample: the coordinate (-0.4, 0, 0) is outside [0,dim) on
x, yet nearest-neighbour sampling on a (1,1,1) volume holding 100 passes
the +0.5-shifted bounds check, rounds to voxel 0 and returns 100, not 0. -/
theorem c2_counterexample :
    ((-0.4 : Real) < 0) /\ getVoxelNN c2Vol (Vec3.mk (-0.4) 0 0) = 100 := by
  constructor
  . norm_num
  . rw [getVoxelNN]
    rw [if_neg (by norm_num [c2Vol])]
    have h1 : itrunc ((-0.4 : Real) + 0.5) = 0 := by
      unfold itrunc
      rw [if_pos (by norm_num)]
      rw [Int.floor_eq_iff]
      norm_num
    have h2 : itrunc ((0 : Real) + 0.5) = 0 := by
      unfold itrunc
      rw [if_pos (by norm_num)]
      rw [Int.floor_eq_iff]
      norm_num
    show getVoxel c2Vol (itrunc ((-0.4 : Real) + 0.5)) (itrunc ((0:Real) + 0.5)) (itrunc ((0:Real) + 0.5)) = 100
    rw [h1, h2]
    norm_num [getVoxel, c2Vol]

/-- C2 (corrected): trilinear and tricubic sampling return 0 for every
coordinate outside [0,dim) on some axis (their guard already rejects
[dim-1, dim)); nearest-neighbour returns 0 only outside [-0.5, dim-0.5) on
some axis, so coordinates in [-0.5, 0) round into the volume (see
`c2_counterexample`). -/
theorem samplers_out_of_bounds (v : Volume) (c : Vec3) :
    ((c.x < 0 \/ c.y < 0 \/ c.z < 0 \/
      (v.dimx : Real) <= c.x \/ (v.dimy : Real) <= c.y \/ (v.dimz : Real) <= c.z) ->
      getVoxelLinearInterpolate v c = 0 /\ getVoxelTriCubicInterpolate v c = 0) /\
    ((c.x < -0.5 \/ c.y < -0.5 \/ c.z < -0.5 \/
      (v.dimx : Real) - 0.5 <= c.x \/ (v.dimy : Real) - 0.5 <= c.y \/ (v.dimz : Real) - 0.5 <= c.z) ->
      getVoxelNN v c = 0) := by
  constructor
  . intro h
    have hg : c.x < 0 \/ c.y < 0 \/ c.z < 0 \/
        ((v.dimx : Real) - 1) <= c.x \/ ((v.dimy : Real) - 1) <= c.y \/ ((v.dimz : Real) - 1) <= c.z := by
      rcases h with h | h | h | h | h | h
      . exact Or.inl h
      . exact Or.inr (Or.inl h)
      . exact Or.inr (Or.inr (Or.inl h))
      . exact Or.inr (Or.inr (Or.inr (Or.inl (by linarith))))
      . exact Or.inr (Or.inr (Or.inr (Or.inr (Or.inl (by linarith)))))
      . exact Or.inr (Or.inr (Or.inr (Or.inr (Or.inr (by linarith)))))
    constructor
    . rw [getVoxelLinearInterpolate, if_pos hg]
    . rw [getVoxelTriCubicInterpolate, if_pos hg]
  . intro h
    have hg : c.x + 0.5 < 0 \/ c.y + 0.5 < 0 \/ c.z + 0.5 < 0 \/
        (v.dimx : Real) <= c.x + 0.5 \/ (v.dimy : Real) <= c.y + 0.5 \/ (v.dimz : Real) <= c.z + 0.5 := by
      rcases h with h | h | h | h | h | h
      . exact Or.inl (by linarith)
      . exact Or.inr (Or.inl (by linarith))
      . exact Or.inr (Or.inr (Or.inl (by linarith)))
      . exact Or.inr (Or.inr (Or.inr (Or.inl (by linarith))))
      . exact Or.inr (Or.inr (Or.inr (Or.inr (Or.inl (by linarith)))))
      . exact Or.inr (Or.inr (Or.inr (Or.inr (Or.inr (by linarith)))))
    rw [getVoxelNN, if_pos hg]


/-- C3 counterexample: on the spec's (2,2,2) scenario volume whose only
nonzero voxel is 100 at (1,1,1), raw lookup and nearest-neighbour at
(1,1,1) return 100, but trilinear and tricubic return 0 — (1,1,1) fails
their `coord < dim - 1` guard — contradicting the claim that all three
return 100 there. -/
theorem c3_counterexample :
    getVoxel c3Vol 1 1 1 = 100 /\
    getVoxelNN c3Vol (Vec3.mk 1 1 1) = 100 /\
    getVoxelLinearInterpolate c3Vol (Vec3.mk 1 1 1) = 0 /\
    getVoxelTriCubicInterpolate c3Vol (Vec3.mk 1 1 1) = 0 := by
  refine ⟨?_, ?_, ?_, ?_⟩
  . norm_num [getVoxel, c3Vol]
    norm_num [show Int.toNat 7 = 7 from rfl]
  . rw [getVoxelNN]
    rw [if_neg (by norm_num [c3Vol])]
    have h1 : itrunc ((1 : Real) + 0.5) = 1 := by
      unfold itrunc
      rw [if_pos (by norm_num)]
      rw [Int.floor_eq_iff]
      norm_num
    show getVoxel c3Vol (itrunc ((1 : Real) + 0.5)) (itrunc ((1:Real) + 0.5)) (itrunc ((1:Real) + 0.5)) = 100
    rw [h1]
    norm_num [getVoxel, c3Vol]
    norm_num [show Int.toNat 7 = 7 from rfl]
  . rw [getVoxelLinearInterpolate, if_pos (by norm_num [c3Vol])]
  . rw [getVoxelTriCubicInterpolate, if_pos (by norm_num [c3Vol])]

/-- C3 (corrected): at integer coordinates strictly inside [0, dim-1) on
every axis, trilinear and tricubic interpolation at the exact grid point
equal `getVoxel` (the blend factors vanish, and the cubic kernel weights
are 1 at 0 and 0 at 1 and 2, for every kernel sharpness `a`);
nearest-neighbour agrees with `getVoxel` on all of [0, dim).  At integer
points with a component equal to dim-1 the interpolators return 0 instead
(see `c3_counterexample`). -/
theorem grid_point_identity (v : Volume) (px py pz : Int) :
    ((0 <= px /\ px < v.dimx - 1 /\ 0 <= py /\ py < v.dimy - 1 /\ 0 <= pz /\ pz < v.dimz - 1) ->
      getVoxelLinearInterpolate v (Vec3.mk px py pz) = getVoxel v px py pz /\
      getVoxelTriCubicInterpolate v (Vec3.mk px py pz) = getVoxel v px py pz) /\
    ((0 <= px /\ px < v.dimx /\ 0 <= py /\ py < v.dimy /\ 0 <= pz /\ pz < v.dimz) ->
      getVoxelNN v (Vec3.mk px py pz) = getVoxel v px py pz) := by
  constructor
  . rintro ⟨a, b, c, d, e, f⟩
    have hg : Not ((Vec3.mk (px:Real) py pz).x < 0 \/ (Vec3.mk (px:Real) py pz).y < 0 \/
        (Vec3.mk (px:Real) py pz).z < 0 \/
        ((v.dimx : Real) - 1) <= (Vec3.mk (px:Real) py pz).x \/
        ((v.dimy : Real) - 1) <= (Vec3.mk (px:Real) py pz).y \/
        ((v.dimz : Real) - 1) <= (Vec3.mk (px:Real) py pz).z) := by
      push_neg
      refine ⟨?_, ?_, ?_, ?_, ?_, ?_⟩ <;> dsimp only
      . exact_mod_cast a
      . exact_mod_cast c
      . exact_mod_cast e
      . have : (px : Real) < ((v.dimx - 1 : Int) : Real) := by exact_mod_cast b
        push_cast at this
        linarith
      . have : (py : Real) < ((v.dimy - 1 : Int) : Real) := by exact_mod_cast d
        push_cast at this
        linarith
      . have : (pz : Real) < ((v.dimz - 1 : Int) : Real) := by exact_mod_cast f
        push_cast at this
        linarith
    constructor
    . rw [getVoxelLinearInterpolate, if_neg hg]
      dsimp only
      simp only [itrunc_intCast, sub_self, linearInterpolate_zero]
    . rw [getVoxelTriCubicInterpolate, if_neg hg]
      dsimp only
      simp only [itrunc_intCast, sub_self, cubicInterpolate_zero, bicubicInterpolateXY]
      simp only [Int.cast_zero, add_zero, itrunc_intCast, sub_self, cubicInterpolate_zero]
      rw [if_neg (not_lt.2 (getVoxel_nonneg v px py pz))]
  . rintro ⟨a, b, c, d, e, f⟩
    have hg : Not ((Vec3.mk (px:Real) py pz).x + 0.5 < 0 \/ (Vec3.mk (px:Real) py pz).y + 0.5 < 0 \/
        (Vec3.mk (px:Real) py pz).z + 0.5 < 0 \/
        (v.dimx : Real) <= (Vec3.mk (px:Real) py pz).x + 0.5 \/
        (v.dimy : Real) <= (Vec3.mk (px:Real) py pz).y + 0.5 \/
        (v.dimz : Real) <= (Vec3.mk (px:Real) py pz).z + 0.5) := by
      push_neg
      refine ⟨?_, ?_, ?_, ?_, ?_, ?_⟩ <;> dsimp only
      . have : (0 : Real) <= (px : Real) := by exact_mod_cast a
        linarith
      . have : (0 : Real) <= (py : Real) := by exact_mod_cast c
        linarith
      . have : (0 : Real) <= (pz : Real) := by exact_mod_cast e
        linarith
      . have : (px : Real) + 1 <= (v.dimx : Real) := by exact_mod_cast b
        linarith
      . have : (py : Real) + 1 <= (v.dimy : Real) := by exact_mod_cast d
        linarith
      . have : (pz : Real) + 1 <= (v.dimz : Real) := by exact_mod_cast f
        linarith
    rw [getVoxelNN, if_neg hg]
    dsimp only
    rw [itrunc_intCast_add_half px a, itrunc_intCast_add_half py c, itrunc_intCast_add_half pz e]


/-- Inside the tent triangle: positive magnitude, positive radius, and the
horizontal distance to the center is below the tent's half width at that
magnitude. -/
theorem tent_inside (center radius i m : Real)
    (h : inTriangle (center - radius) center (center + radius) i m = true) :
    0 < radius /\ 0 < m /\ |center - i| < radius * (m / 255) := by
  unfold inTriangle at h
  split at h
  . exact absurd h (by simp)
  . rename_i hA
    push_neg at hA
    obtain ⟨hl, hr, hm⟩ := hA
    have hlt : center - radius < i := hl
    have hrt : i < center + radius := hr
    have hmp : 0 < m := hm
    have hrad : 0 < radius := by linarith
    refine ⟨hrad, hmp, ?_⟩
    split at h
    . rename_i heq
      rw [heq]
      simp only [sub_self, abs_zero]
      positivity
    . rename_i hne
      split at h
      . rename_i hlt2
        have hd : 255 * ((center - i) / (center - (center - radius))) < m := of_decide_eq_true h
        have : (center - i) / radius < m / 255 := by
          rw [show center - (center - radius) = radius by ring] at hd
          linarith
        have : center - i < radius * (m / 255) := by
          calc center - i = radius * ((center - i) / radius) := by field_simp
          _ < radius * (m / 255) := by exact mul_lt_mul_of_pos_left this hrad
        rw [abs_of_pos (by linarith)]
        exact this
      . rename_i hge
        have hgt : center < i := lt_of_le_of_ne (not_lt.1 hge) (fun hh => hne hh.symm)
        have hd : 255 * ((i - center) / (center + radius - center)) < m := of_decide_eq_true h
        have : (i - center) / radius < m / 255 := by
          rw [show center + radius - center = radius by ring] at hd
          linarith
        have : i - center < radius * (m / 255) := by
          calc i - center = radius * ((i - center) / radius) := by field_simp
          _ < radius * (m / 255) := by exact mul_lt_mul_of_pos_left this hrad
        rw [abs_of_neg (by linarith), neg_sub]
        exact this

/-- The tent opacity of a point inside the triangle lies in (0, 1]. -/
theorem linearOpacity_mem (center radius i m : Real)
    (h : inTriangle (center - radius) center (center + radius) i m = true) :
    0 < linearOpacity center radius i m /\ linearOpacity center radius i m <= 1 := by
  obtain ⟨hrad, hmp, habs⟩ := tent_inside center radius i m h
  unfold linearOpacity
  dsimp only
  have hw : 0 < radius * (m / 255) := by positivity
  constructor
  . have : |center - i| / (radius * (m / 255)) < 1 := by
      rw [div_lt_one hw]
      exact habs
    linarith
  . have : 0 <= |center - i| / (radius * (m / 255)) := by positivity
    linarith

/-- Helper shared by the opacity-bound claims: getTF2DOpacity is within
[0, 1]. -/
theorem getTF2DOpacity_mem (r : Renderer) (i m : Real) :
    0 <= getTF2DOpacity r i m /\ getTF2DOpacity r i m <= 1 := by
  unfold getTF2DOpacity
  split
  . rename_i h
    have := linearOpacity_mem r.config.TF2DIntensity r.config.TF2DRadius i m h
    exact ⟨this.1.le, this.2⟩
  . norm_num


/-- C10 (confirmed): `getTF2DOpacity` always returns a value in [0,1]; it
returns 0 when `inTriangle` rejects the point, and when `inTriangle`
accepts, the magnitude is positive and |center - intensity| is strictly
below `radius * magnitude / 255`, so `linearOpacity`'s divisor is nonzero
and the result lies in (0, 1]. -/
theorem getTF2DOpacity_spec (r : Renderer) (i m : Real) :
    (0 <= getTF2DOpacity r i m /\ getTF2DOpacity r i m <= 1) /\
    (inTriangle (r.config.TF2DIntensity - r.config.TF2DRadius) r.config.TF2DIntensity
        (r.config.TF2DIntensity + r.config.TF2DRadius) i m = false ->
      getTF2DOpacity r i m = 0) /\
    (inTriangle (r.config.TF2DIntensity - r.config.TF2DRadius) r.config.TF2DIntensity
        (r.config.TF2DIntensity + r.config.TF2DRadius) i m = true ->
      0 < m /\ |r.config.TF2DIntensity - i| < r.config.TF2DRadius * (m / 255) /\
      0 < getTF2DOpacity r i m) := by
  refine ⟨getTF2DOpacity_mem r i m, ?_, ?_⟩
  . intro h
    unfold getTF2DOpacity
    rw [h]
    simp
  . intro h
    obtain ⟨hrad, hmp, habs⟩ := tent_inside _ _ _ _ h
    refine ⟨hmp, habs, ?_⟩
    unfold getTF2DOpacity
    rw [h]
    simp only [if_true]
    exact (linearOpacity_mem _ _ _ _ h).1

/-- C10 witness: the bounds at the concrete apex point (100, 255). -/
theorem getTF2DOpacity_spec_witness :
    0 <= getTF2DOpacity c8Renderer 100 255 /\ getTF2DOpacity c8Renderer 100 255 <= 1 :=
  (getTF2DOpacity_spec c8Renderer 100 255).1

/-- C8 (confirmed): for every (intensity, gradient magnitude) pair inside
both variant-2 classifier triangles, `getTF2DV2Opacity` returns classifier
0's tent opacity and `getTF2DV2Color` returns classifier 0's color — the
first branch already returns, so the written larger-opacity resolution
branch is unreachable and classifier 0 always wins. -/
theorem tf2dv2_classifier0_wins (r : Renderer) (i m : Real)
    (h0 : inTriangle (r.config.TF2DV2Intensity_0 - r.config.TF2DV2Radius_0)
      r.config.TF2DV2Intensity_0 (r.config.TF2DV2Intensity_0 + r.config.TF2DV2Radius_0)
      i m = true)
    (h1 : inTriangle (r.config.TF2DV2Intensity_1 - r.config.TF2DV2Radius_1)
      r.config.TF2DV2Intensity_1 (r.config.TF2DV2Intensity_1 + r.config.TF2DV2Radius_1)
      i m = true) :
    getTF2DV2Opacity r i m =
      linearOpacity r.config.TF2DV2Intensity_0 r.config.TF2DV2Radius_0 i m /\
    getTF2DV2Color r i m = r.config.TF2DV2Color_0 := by
  constructor
  . unfold getTF2DV2Opacity
    rw [h0]
    simp
  . unfold getTF2DV2Color
    rw [h0]
    simp

/-- C8 witness: the point (100, 255) lies inside both concrete classifier
triangles (centers 100, radii 50 and 60). -/
theorem tf2dv2_classifier0_wins_witness :
    getTF2DV2Opacity c8Renderer 100 255 =
      linearOpacity c8Renderer.config.TF2DV2Intensity_0 c8Renderer.config.TF2DV2Radius_0 100 255 /\
    getTF2DV2Color c8Renderer 100 255 = c8Renderer.config.TF2DV2Color_0 :=
  tf2dv2_classifier0_wins c8Renderer 100 255
    (by norm_num [c8Renderer, cfg0, inTriangle])
    (by norm_num [c8Renderer, cfg0, inTriangle])


/-- The fuelled bisection loop, characterized: with fuel f >= 1 it returns
the midpoint of the K-th bracket for some K < f, where no earlier midpoint
met the early-exit test, and either the K-th midpoint meets it or the fuel
ran out (K = f - 1). -/
theorem bisectGo_spec (r : Renderer) (ray : Ray) (iso : Real) :
    ∀ f : Nat, 1 <= f -> ∀ t0 t1 : Real,
    ∃ K : Nat, K <= f - 1 /\
      bisectGo r ray iso f t0 t1 = bmid ((bisectStep r ray iso)^[K] (t0, t1)) /\
      (∀ j : Nat, j < K -> Not (bisectClose r ray iso ((bisectStep r ray iso)^[j] (t0, t1)))) /\
      (bisectClose r ray iso ((bisectStep r ray iso)^[K] (t0, t1)) \/ K = f - 1) := by
  intro f
  induction f with
  | zero => intro h; omega
  | succ f ih =>
    intro _ t0 t1
    match f, ih with
    | 0, _ =>
      refine ⟨0, by omega, ?_, by omega, Or.inr rfl⟩
      rfl
    | f + 1, ih =>
      by_cases hc : bisectClose r ray iso (t0, t1)
      . refine ⟨0, by omega, ?_, by omega, Or.inl hc⟩
        show bisectGo r ray iso (f + 2) t0 t1 = (t0 + t1) / 2
        unfold bisectGo
        rw [if_pos]
        exact hc
      . obtain ⟨K, hK, hval, hnot, hlast⟩ := ih (by omega) (bisectStep r ray iso (t0, t1)).1
          (bisectStep r ray iso (t0, t1)).2
        have heta : ((bisectStep r ray iso (t0, t1)).1, (bisectStep r ray iso (t0, t1)).2) =
            bisectStep r ray iso (t0, t1) := rfl
        rw [heta] at hval hnot hlast
        have hstep : bisectGo r ray iso (f + 2) t0 t1 =
            bisectGo r ray iso (f + 1) (bisectStep r ray iso (t0, t1)).1
              (bisectStep r ray iso (t0, t1)).2 := by
          have hc2 : Not (|sampleAtT r ray ((t0 + t1) / 2) - iso| < 1 / 10000) := hc
          show (let m := (t0 + t1) / 2
            if |sampleAtT r ray m - iso| < 1 / 10000 then m
            else if sampleAtT r ray m < iso then bisectGo r ray iso (f + 1) m t1
            else bisectGo r ray iso (f + 1) t0 m) = _
          dsimp only
          rw [if_neg hc2]
          unfold bisectStep
          dsimp only
          split
          . rfl
          . rfl
        refine ⟨K + 1, by omega, ?_, ?_, ?_⟩
        . rw [hstep, hval, Function.iterate_succ_apply]
        . intro j hj
          match j with
          | 0 => exact fun hcl => hc hcl
          | j + 1 =>
            rw [Function.iterate_succ_apply]
            exact hnot j (by omega)
        . rw [Function.iterate_succ_apply]
          rcases hlast with h | h
          . exact Or.inl h
          . exact Or.inr (by omega)


/-- C9 (confirmed): `bisectionAccuracy` is a total function — it never
loops — and for every bracket and iso value it returns the midpoint of the
K-th narrowed bracket for some K <= 499, where no earlier midpoint met the
early-exit test `|sample(mid) - isoValue| < 1e-4`, and either the K-th
midpoint meets it (early exit as soon as the test passes) or the 500
iterations of fuel ran out (K = 499). -/
theorem bisectionAccuracy_terminating_spec (r : Renderer) (ray : Ray) (t0 t1 iso : Real) :
    ∃ K : Nat, K <= 499 /\
      bisectionAccuracy r ray t0 t1 iso = bmid ((bisectStep r ray iso)^[K] (t0, t1)) /\
      (∀ j : Nat, j < K -> Not (bisectClose r ray iso ((bisectStep r ray iso)^[j] (t0, t1)))) /\
      (bisectClose r ray iso ((bisectStep r ray iso)^[K] (t0, t1)) \/ K = 499) := by
  have h := bisectGo_spec r ray iso 500 (by norm_num) t0 t1
  simpa using h


/-- The sign-selected near/far products of the source equal the slab
entry/exit distances, and entry <= exit, for a nonzero direction component
and ordered slab bounds. -/
theorem slab_eq (lo hi o d : Real) (hd : d ≠ 0) (hb : lo <= hi) :
    ((if 1 / d < 0 then hi else lo) - o) * (1 / d) = slabEntry lo hi o d /\
    ((if 1 / d < 0 then lo else hi) - o) * (1 / d) = slabExit lo hi o d /\
    slabEntry lo hi o d <= slabExit lo hi o d := by
  have hsub : lo - o <= hi - o := by linarith
  rcases hd.lt_or_lt with hneg | hpos
  . have hinv : 1 / d < 0 := one_div_neg.2 hneg
    have h1 : (hi - o) / d <= (lo - o) / d := (div_le_div_right_of_neg hneg).2 hsub
    rw [if_pos hinv, if_pos hinv]
    unfold slabEntry slabExit
    rw [min_eq_right h1, max_eq_left h1]
    constructor
    . rw [mul_one_div]
    . constructor
      . rw [mul_one_div]
      . exact h1
  . have hinv : Not (1 / d < 0) := not_lt.2 (one_div_pos.2 hpos).le
    have h1 : (lo - o) / d <= (hi - o) / d := (div_le_div_iff_of_pos_right hpos).2 hsub
    rw [if_neg hinv, if_neg hinv]
    unfold slabEntry slabExit
    rw [min_eq_left h1, max_eq_right h1]
    constructor
    . rw [mul_one_div]
    . constructor
      . rw [mul_one_div]
      . exact h1


/-- C4 (confirmed): for every ray with nonzero direction components and
every bounds whose lower corner is below its upper corner, the slab test
`instersectRayVolumeBounds` leaves the ray untouched when it reports a
miss, and on a hit writes `tmin`/`tmax` to exactly the intersection of the
three per-axis slab intervals, with `tmin <= tmax`.  (Zero direction
components rely on IEEE signed infinities, outside this real-number
embedding.) -/
theorem instersect_spec (ray : Ray) (b : Bounds)
    (hx : ray.direction.x ≠ 0) (hy : ray.direction.y ≠ 0) (hz : ray.direction.z ≠ 0)
    (hbx : b.lower.x <= b.upper.x) (hby : b.lower.y <= b.upper.y)
    (hbz : b.lower.z <= b.upper.z) :
    ((instersectRayVolumeBounds ray b).1 = false -> (instersectRayVolumeBounds ray b).2 = ray) /\
    ((instersectRayVolumeBounds ray b).1 = true ->
      (instersectRayVolumeBounds ray b).2.origin = ray.origin /\
      (instersectRayVolumeBounds ray b).2.direction = ray.direction /\
      (instersectRayVolumeBounds ray b).2.tmin =
        max (max (slabEntry b.lower.x b.upper.x ray.origin.x ray.direction.x)
          (slabEntry b.lower.y b.upper.y ray.origin.y ray.direction.y))
          (slabEntry b.lower.z b.upper.z ray.origin.z ray.direction.z) /\
      (instersectRayVolumeBounds ray b).2.tmax =
        min (min (slabExit b.lower.x b.upper.x ray.origin.x ray.direction.x)
          (slabExit b.lower.y b.upper.y ray.origin.y ray.direction.y))
          (slabExit b.lower.z b.upper.z ray.origin.z ray.direction.z) /\
      (instersectRayVolumeBounds ray b).2.tmin <= (instersectRayVolumeBounds ray b).2.tmax) := by
  obtain ⟨ex1, ex2, ex3⟩ := slab_eq b.lower.x b.upper.x ray.origin.x ray.direction.x hx hbx
  obtain ⟨ey1, ey2, ey3⟩ := slab_eq b.lower.y b.upper.y ray.origin.y ray.direction.y hy hby
  obtain ⟨ez1, ez2, ez3⟩ := slab_eq b.lower.z b.upper.z ray.origin.z ray.direction.z hz hbz
  unfold instersectRayVolumeBounds
  dsimp only
  rw [ex1, ex2, ey1, ey2, ez1, ez2]
  split
  . exact ⟨fun _ => rfl, fun h => absurd h (by simp)⟩
  . rename_i h1
    split
    . exact ⟨fun _ => rfl, fun h => absurd h (by simp)⟩
    . rename_i h2
      push_neg at h1 h2
      obtain ⟨h1a, h1b⟩ := h1
      obtain ⟨h2a, h2b⟩ := h2
      refine ⟨fun h => absurd h (by simp), fun _ => ⟨rfl, rfl, rfl, rfl, ?_⟩⟩
      dsimp only
      exact sup_le (le_inf (sup_le (le_inf ex3 h1a) (le_inf h1b ey3)) h2a) (le_inf h2b ez3)


/-- C4 witness: the hypotheses hold at a concrete ray and the unit box. -/
theorem instersect_spec_witness :
    ((instersectRayVolumeBounds c4wRay c4wBounds).1 = false ->
      (instersectRayVolumeBounds c4wRay c4wBounds).2 = c4wRay) /\
    ((instersectRayVolumeBounds c4wRay c4wBounds).1 = true ->
      (instersectRayVolumeBounds c4wRay c4wBounds).2.origin = c4wRay.origin /\
      (instersectRayVolumeBounds c4wRay c4wBounds).2.direction = c4wRay.direction /\
      (instersectRayVolumeBounds c4wRay c4wBounds).2.tmin =
        max (max (slabEntry c4wBounds.lower.x c4wBounds.upper.x c4wRay.origin.x c4wRay.direction.x)
          (slabEntry c4wBounds.lower.y c4wBounds.upper.y c4wRay.origin.y c4wRay.direction.y))
          (slabEntry c4wBounds.lower.z c4wBounds.upper.z c4wRay.origin.z c4wRay.direction.z) /\
      (instersectRayVolumeBounds c4wRay c4wBounds).2.tmax =
        min (min (slabExit c4wBounds.lower.x c4wBounds.upper.x c4wRay.origin.x c4wRay.direction.x)
          (slabExit c4wBounds.lower.y c4wBounds.upper.y c4wRay.origin.y c4wRay.direction.y))
          (slabExit c4wBounds.lower.z c4wBounds.upper.z c4wRay.origin.z c4wRay.direction.z) /\
      (instersectRayVolumeBounds c4wRay c4wBounds).2.tmin <=
        (instersectRayVolumeBounds c4wRay c4wBounds).2.tmax) :=
  instersect_spec c4wRay c4wBounds (by norm_num [c4wRay]) (by norm_num [c4wRay])
    (by norm_num [c4wRay]) (by norm_num [c4wBounds, vzero3]) (by norm_num [c4wBounds, vzero3])
    (by norm_num [c4wBounds, vzero3])


/-- The code's left fold of running maxima equals the order-insensitive
Finset fold. -/
theorem foldMax_eq_finsetFold (f : Nat -> Real) (n : Nat) :
    (List.range n).foldl (fun m k => max (f k) m) 0 =
      (Finset.range n).fold max 0 f := by
  induction n with
  | zero => rfl
  | succ n ih =>
    rw [List.range_succ, List.foldl_append, Finset.range_succ,
      Finset.fold_insert Finset.not_mem_range_self]
    simp only [List.foldl_cons, List.foldl_nil, ih]

theorem range_image_reflect (M : Nat) :
    (Finset.range (M + 1)).image (fun k => M - k) = Finset.range (M + 1) := by
  ext j
  simp only [Finset.mem_image, Finset.mem_range]
  constructor
  . rintro ⟨k, hk, rfl⟩
    omega
  . intro hj
    exact ⟨M - j, by omega, by omega⟩


/-- C7 (corrected): when tmax - tmin is an exact multiple of the sample
step, the backward scan from tmax visits the same sample positions as the
forward scan from tmin in reverse order, so the running maximum — and
hence the MIP pixel color — is unchanged.  When the interval is not a
multiple of the step the two scans sample different positions and can
disagree (see `c7_counterexample`). -/
theorem mip_backward_eq_forward (r : Renderer) (ray : Ray) (s : Real) (M : Nat)
    (hs : 0 < s) (hM : ray.tmax - ray.tmin = (M : Real) * s) :
    traceRayMIPBackward r ray s = traceRayMIP r ray s := by
  have hmax : mipMaxBackward r ray s = mipMaxForward r ray s := by
    have hle : ray.tmin <= ray.tmax := by nlinarith [Nat.cast_nonneg (α := Real) M]
    have hcount : stepCount ray.tmin ray.tmax s = M + 1 := by
      unfold stepCount
      rw [if_neg (not_lt.2 hle), hM, mul_div_assoc, div_self hs.ne.symm, mul_one,
        Int.floor_natCast, Int.toNat_natCast]
    unfold mipMaxBackward mipMaxForward
    rw [hcount, foldMax_eq_finsetFold, foldMax_eq_finsetFold]
    have himg := range_image_reflect M
    conv_lhs => rw [← himg]
    rw [Finset.fold_image (by intro a ha b hb hab; simp only [Finset.mem_range] at ha hb; omega)]
    apply Finset.fold_congr
    intro k hk
    simp only [Finset.mem_range] at hk
    have hcast : ((M - k : Nat) : Real) = (M : Real) - (k : Real) := by
      rw [Nat.cast_sub (by omega)]
    show getVoxelInterpolate r.volume (rayAt ray (ray.tmax - ((M - k : Nat) : Real) * s)) =
      getVoxelInterpolate r.volume (rayAt ray (ray.tmin + (k : Real) * s))
    rw [hcast]
    congr 2
    nlinarith [hM]
  unfold traceRayMIPBackward traceRayMIP
  rw [hmax]


/-- C7 witness: a ray with tmax - tmin = 2 and unit step. -/
theorem mip_backward_eq_forward_witness :
    traceRayMIPBackward c7Renderer c7wRay 1 = traceRayMIP c7Renderer c7wRay 1 :=
  mip_backward_eq_forward c7Renderer c7wRay 1 2 (by norm_num) (by norm_num [c7wRay])

/-- C7 counterexample: on a (3,1,1) volume with data [0,0,50] and a ray
with tmin = 0, tmax = 1.5, unit step, the forward MIP scan samples x = 0, 1
(maximum 0) while the backward scan samples x = 1.5, 0.5 (maximum 50):
stepping backward in the same increments does not yield the same running
maximum. -/
theorem c7_counterexample :
    c7Ray.tmin <= c7Ray.tmax /\
    mipMaxForward c7Renderer c7Ray 1 = 0 /\
    mipMaxBackward c7Renderer c7Ray 1 = 50 := by
  have hnn0 : getVoxelNN c7Vol (Vec3.mk 0 0 0) = 0 := by
    rw [getVoxelNN, if_neg (by norm_num [c7Vol])]
    have h : itrunc ((0 : Real) + 0.5) = 0 := by
      unfold itrunc
      rw [if_pos (by norm_num), Int.floor_eq_iff]
      norm_num
    show getVoxel c7Vol (itrunc ((0:Real) + 0.5)) (itrunc ((0:Real) + 0.5)) (itrunc ((0:Real) + 0.5)) = 0
    rw [h]
    norm_num [getVoxel, c7Vol]
  have hnn1 : getVoxelNN c7Vol (Vec3.mk 1 0 0) = 0 := by
    rw [getVoxelNN, if_neg (by norm_num [c7Vol])]
    have h : itrunc ((1 : Real) + 0.5) = 1 := by
      unfold itrunc
      rw [if_pos (by norm_num), Int.floor_eq_iff]
      norm_num
    have h0 : itrunc ((0 : Real) + 0.5) = 0 := by
      unfold itrunc
      rw [if_pos (by norm_num), Int.floor_eq_iff]
      norm_num
    show getVoxel c7Vol (itrunc ((1:Real) + 0.5)) (itrunc ((0:Real) + 0.5)) (itrunc ((0:Real) + 0.5)) = 0
    rw [h, h0]
    norm_num [getVoxel, c7Vol]
  have hnn15 : getVoxelNN c7Vol (Vec3.mk 1.5 0 0) = 50 := by
    rw [getVoxelNN, if_neg (by norm_num [c7Vol])]
    have h : itrunc ((1.5 : Real) + 0.5) = 2 := by
      unfold itrunc
      rw [if_pos (by norm_num), Int.floor_eq_iff]
      norm_num
    have h0 : itrunc ((0 : Real) + 0.5) = 0 := by
      unfold itrunc
      rw [if_pos (by norm_num), Int.floor_eq_iff]
      norm_num
    show getVoxel c7Vol (itrunc ((1.5:Real) + 0.5)) (itrunc ((0:Real) + 0.5)) (itrunc ((0:Real) + 0.5)) = 50
    rw [h, h0]
    norm_num [getVoxel, c7Vol]
    norm_num [show Int.toNat 2 = 2 from rfl]
  have hnn05 : getVoxelNN c7Vol (Vec3.mk 0.5 0 0) = 0 := by
    rw [getVoxelNN, if_neg (by norm_num [c7Vol])]
    have h : itrunc ((0.5 : Real) + 0.5) = 1 := by
      unfold itrunc
      rw [if_pos (by norm_num), Int.floor_eq_iff]
      norm_num
    have h0 : itrunc ((0 : Real) + 0.5) = 0 := by
      unfold itrunc
      rw [if_pos (by norm_num), Int.floor_eq_iff]
      norm_num
    show getVoxel c7Vol (itrunc ((0.5:Real) + 0.5)) (itrunc ((0:Real) + 0.5)) (itrunc ((0:Real) + 0.5)) = 0
    rw [h, h0]
    norm_num [getVoxel, c7Vol]
  have hcount : stepCount c7Ray.tmin c7Ray.tmax 1 = 2 := by
    show stepCount 0 1.5 1 = 2
    unfold stepCount
    rw [if_neg (by norm_num)]
    norm_num
  have hvol : c7Renderer.volume = c7Vol := rfl
  have hmode : getVoxelInterpolate c7Vol = getVoxelNN c7Vol := by
    funext c
    rfl
  refine ⟨by norm_num [c7Ray], ?_, ?_⟩
  . unfold mipMaxForward
    rw [hcount, hvol, hmode]
    rw [show List.range 2 = [0, 1] from rfl]
    simp only [List.foldl_cons, List.foldl_nil]
    have p0 : rayAt c7Ray (c7Ray.tmin + ((0:Nat) : Real) * 1) = Vec3.mk 0 0 0 := by
      norm_num [rayAt, c7Ray, vadd, vsmul, vzero3]
    have p1 : rayAt c7Ray (c7Ray.tmin + ((1:Nat) : Real) * 1) = Vec3.mk 1 0 0 := by
      norm_num [rayAt, c7Ray, vadd, vsmul, vzero3]
    rw [p0, p1, hnn0, hnn1]
    norm_num
  . unfold mipMaxBackward
    rw [hcount, hvol, hmode]
    rw [show List.range 2 = [0, 1] from rfl]
    simp only [List.foldl_cons, List.foldl_nil]
    have p0 : rayAt c7Ray (c7Ray.tmax - ((0:Nat) : Real) * 1) = Vec3.mk 1.5 0 0 := by
      norm_num [rayAt, c7Ray, vadd, vsmul, vzero3]
    have p1 : rayAt c7Ray (c7Ray.tmax - ((1:Nat) : Real) * 1) = Vec3.mk 0.5 0 0 := by
      norm_num [rayAt, c7Ray, vadd, vsmul, vzero3]
    rw [p0, p1, hnn15, hnn05]
    norm_num


/-- foldl preserves an invariant. -/
theorem foldl_invariant {α β : Type} (P : β -> Prop) (f : β -> α -> β) :
    ∀ (l : List α) (b : β), P b -> (∀ b a, P b -> P (f b a)) -> P (l.foldl f b) := by
  intro l
  induction l with
  | nil => intro b hb _; exact hb
  | cons a l ih =>
    intro b hb hf
    exact ih (f b a) (hf b a hb) hf

/-- A convex combination of two unit-interval reals is in the unit
interval. -/
theorem convex_unit (a x y : Real) (ha0 : 0 <= a) (ha1 : a <= 1) (hx0 : 0 <= x) (hx1 : x <= 1)
    (hy0 : 0 <= y) (hy1 : y <= 1) : 0 <= a * x + (1 - a) * y /\ a * x + (1 - a) * y <= 1 := by
  constructor
  . nlinarith
  . nlinarith

/-- The 1D lookup returns a table entry or the zero color. -/
theorem getTFValue_cases (r : Renderer) (val : Real) :
    getTFValue r val ∈ r.config.tfColorMap \/ getTFValue r val = vzero4 := by
  unfold getTFValue
  dsimp only
  set i := if (val - r.config.tfColorMapIndexStart) / r.config.tfColorMapIndexRange *
      (r.config.tfColorMap.length : Real) < 0 then r.config.tfColorMap.length - 1
    else min (⌊(val - r.config.tfColorMapIndexStart) / r.config.tfColorMapIndexRange *
      (r.config.tfColorMap.length : Real)⌋.toNat) (r.config.tfColorMap.length - 1) with hi
  rcases Nat.lt_or_ge i r.config.tfColorMap.length with h | h
  . exact Or.inl (by rw [List.getD_eq_getElem _ _ h]; exact List.getElem_mem h)
  . exact Or.inr (List.getD_eq_default _ _ h)

/-- The variant-2 opacity is within [0, 1]. -/
theorem getTF2DV2Opacity_mem (r : Renderer) (i m : Real) :
    0 <= getTF2DV2Opacity r i m /\ getTF2DV2Opacity r i m <= 1 := by
  unfold getTF2DV2Opacity
  dsimp only
  split
  . rename_i h
    have := linearOpacity_mem r.config.TF2DV2Intensity_0 r.config.TF2DV2Radius_0 i m h
    exact ⟨this.1.le, this.2⟩
  . rename_i h0
    split
    . rename_i h
      have := linearOpacity_mem r.config.TF2DV2Intensity_1 r.config.TF2DV2Radius_1 i m h
      exact ⟨this.1.le, this.2⟩
    . rename_i h1
      split
      . rename_i hand
        rw [Bool.and_eq_true] at hand
        exact absurd hand.1 h0
      . norm_num

/-- The variant-2 color is one of the two configured colors or the zero
color. -/
theorem getTF2DV2Color_cases (r : Renderer) (i m : Real) :
    getTF2DV2Color r i m = r.config.TF2DV2Color_0 \/
    getTF2DV2Color r i m = r.config.TF2DV2Color_1 \/
    getTF2DV2Color r i m = vzero4 := by
  unfold getTF2DV2Color
  dsimp only
  split
  . exact Or.inl rfl
  . split
    . exact Or.inr (Or.inl rfl)
    . split
      . split
        . exact Or.inl rfl
        . exact Or.inr (Or.inl rfl)
      . exact Or.inr (Or.inr rfl)


/-- C6 (corrected): all three compositors always return alpha exactly 1.
The RGB components stay within [0,1] whenever every transfer-function color
used is within [0,1] *and volume shading is disabled* (variant 2 has no
shading branch, so its bound is unconditional); with shading enabled the
Phong factor can be negative and drive RGB below 0 (see
`c6_counterexample`). -/
theorem composite_alpha_one_rgb_unit (r : Renderer) (ray : Ray) (s : Real) :
    ((backToFrontComposite r ray s).w = 1 /\ (traceRayTF2D r ray s).w = 1 /\
      (traceRayTF2DV2 r ray s).w = 1) /\
    (r.config.volumeShading = false ->
      (∀ c ∈ r.config.tfColorMap, colorInUnit c) ->
      rgbInUnit (rgb (backToFrontComposite r ray s))) /\
    (r.config.volumeShading = false -> colorInUnit r.config.TF2DColor ->
      rgbInUnit (rgb (traceRayTF2D r ray s))) /\
    (colorInUnit r.config.TF2DV2Color_0 -> colorInUnit r.config.TF2DV2Color_1 ->
      rgbInUnit (rgb (traceRayTF2DV2 r ray s))) := by
  refine ⟨⟨rfl, rfl, rfl⟩, ?_, ?_, ?_⟩
  . intro hsh hmap
    unfold backToFrontComposite
    dsimp only
    simp only [hsh, Bool.false_eq_true, if_false]
    refine foldl_invariant rgbInUnit _ _ _ (by norm_num [rgbInUnit, vzero3]) ?_
    intro b k hb
    have htf : colorInUnit (getTFValue r (getVoxelInterpolate r.volume
        (rayAt ray (ray.tmax - (k : Real) * s)))) := by
      rcases getTFValue_cases r (getVoxelInterpolate r.volume
          (rayAt ray (ray.tmax - (k : Real) * s))) with h | h
      . exact hmap _ h
      . rw [h]
        norm_num [colorInUnit, vzero4]
    obtain ⟨hx0, hx1, hy0, hy1, hz0, hz1, hw0, hw1⟩ := htf
    obtain ⟨bx0, bx1, by0, by1, bz0, bz1⟩ := hb
    refine ⟨?_, ?_, ?_, ?_, ?_, ?_⟩
    . exact (convex_unit _ _ _ hw0 hw1 hx0 hx1 bx0 bx1).1
    . exact (convex_unit _ _ _ hw0 hw1 hx0 hx1 bx0 bx1).2
    . exact (convex_unit _ _ _ hw0 hw1 hy0 hy1 by0 by1).1
    . exact (convex_unit _ _ _ hw0 hw1 hy0 hy1 by0 by1).2
    . exact (convex_unit _ _ _ hw0 hw1 hz0 hz1 bz0 bz1).1
    . exact (convex_unit _ _ _ hw0 hw1 hz0 hz1 bz0 bz1).2
  . intro hsh hcol
    unfold traceRayTF2D
    dsimp only
    simp only [hsh, Bool.false_eq_true, if_false]
    obtain ⟨hx0, hx1, hy0, hy1, hz0, hz1, hw0, hw1⟩ := hcol
    refine foldl_invariant rgbInUnit _ _ _ (by norm_num [rgbInUnit, vzero3]) ?_
    intro b k hb
    obtain ⟨bx0, bx1, by0, by1, bz0, bz1⟩ := hb
    have hop := getTF2DOpacity_mem r (getVoxelInterpolate r.volume
      (rayAt ray (ray.tmax - (k : Real) * s)))
      (r.gradientVolume.getGradientVoxel (rayAt ray (ray.tmax - (k : Real) * s))).magnitude
    have ho0 : 0 <= getTF2DOpacity r (getVoxelInterpolate r.volume
        (rayAt ray (ray.tmax - (k : Real) * s)))
        (r.gradientVolume.getGradientVoxel (rayAt ray (ray.tmax - (k : Real) * s))).magnitude *
        r.config.TF2DColor.w := mul_nonneg hop.1 hw0
    have ho1 : getTF2DOpacity r (getVoxelInterpolate r.volume
        (rayAt ray (ray.tmax - (k : Real) * s)))
        (r.gradientVolume.getGradientVoxel (rayAt ray (ray.tmax - (k : Real) * s))).magnitude *
        r.config.TF2DColor.w <= 1 := by nlinarith [hop.1, hop.2]
    refine ⟨?_, ?_, ?_, ?_, ?_, ?_⟩
    . exact (convex_unit _ _ _ ho0 ho1 hx0 hx1 bx0 bx1).1
    . exact (convex_unit _ _ _ ho0 ho1 hx0 hx1 bx0 bx1).2
    . exact (convex_unit _ _ _ ho0 ho1 hy0 hy1 by0 by1).1
    . exact (convex_unit _ _ _ ho0 ho1 hy0 hy1 by0 by1).2
    . exact (convex_unit _ _ _ ho0 ho1 hz0 hz1 bz0 bz1).1
    . exact (convex_unit _ _ _ ho0 ho1 hz0 hz1 bz0 bz1).2
  . intro hc0 hc1
    unfold traceRayTF2DV2
    dsimp only
    refine foldl_invariant rgbInUnit _ _ _ (by norm_num [rgbInUnit, vzero3]) ?_
    intro b k hb
    obtain ⟨bx0, bx1, by0, by1, bz0, bz1⟩ := hb
    have hcol : colorInUnit (getTF2DV2Color r (getVoxelInterpolate r.volume
        (rayAt ray (ray.tmax - (k : Real) * s)))
        (r.gradientVolume.getGradientVoxel (rayAt ray (ray.tmax - (k : Real) * s))).magnitude) := by
      rcases getTF2DV2Color_cases r (getVoxelInterpolate r.volume
          (rayAt ray (ray.tmax - (k : Real) * s)))
          (r.gradientVolume.getGradientVoxel (rayAt ray (ray.tmax - (k : Real) * s))).magnitude
        with h | h | h
      . rw [h]; exact hc0
      . rw [h]; exact hc1
      . rw [h]; norm_num [colorInUnit, vzero4]
    have hop := getTF2DV2Opacity_mem r (getVoxelInterpolate r.volume
      (rayAt ray (ray.tmax - (k : Real) * s)))
      (r.gradientVolume.getGradientVoxel (rayAt ray (ray.tmax - (k : Real) * s))).magnitude
    obtain ⟨hx0, hx1, hy0, hy1, hz0, hz1, hw0, hw1⟩ := hcol
    have ho0 : 0 <= getTF2DV2Opacity r (getVoxelInterpolate r.volume
        (rayAt ray (ray.tmax - (k : Real) * s)))
        (r.gradientVolume.getGradientVoxel (rayAt ray (ray.tmax - (k : Real) * s))).magnitude *
        (getTF2DV2Color r (getVoxelInterpolate r.volume
          (rayAt ray (ray.tmax - (k : Real) * s)))
          (r.gradientVolume.getGradientVoxel (rayAt ray (ray.tmax - (k : Real) * s))).magnitude).w :=
      mul_nonneg hop.1 hw0
    have ho1 : getTF2DV2Opacity r (getVoxelInterpolate r.volume
        (rayAt ray (ray.tmax - (k : Real) * s)))
        (r.gradientVolume.getGradientVoxel (rayAt ray (ray.tmax - (k : Real) * s))).magnitude *
        (getTF2DV2Color r (getVoxelInterpolate r.volume
          (rayAt ray (ray.tmax - (k : Real) * s)))
          (r.gradientVolume.getGradientVoxel (rayAt ray (ray.tmax - (k : Real) * s))).magnitude).w <= 1 := by
      nlinarith [hop.1, hop.2]
    refine ⟨?_, ?_, ?_, ?_, ?_, ?_⟩
    . exact (convex_unit _ _ _ ho0 ho1 hx0 hx1 bx0 bx1).1
    . exact (convex_unit _ _ _ ho0 ho1 hx0 hx1 bx0 bx1).2
    . exact (convex_unit _ _ _ ho0 ho1 hy0 hy1 by0 by1).1
    . exact (convex_unit _ _ _ ho0 ho1 hy0 hy1 by0 by1).2
    . exact (convex_unit _ _ _ ho0 ho1 hz0 hz1 bz0 bz1).1
    . exact (convex_unit _ _ _ ho0 ho1 hz0 hz1 bz0 bz1).2


/-- The Phong factor at the C6 counterexample's geometry is negative. -/
theorem phong_counterexample_neg :
    (computePhongShading (Vec3.mk 1 1 1) (GradientVoxel.mk (Vec3.mk 1 0 0) 1)
      (Vec3.mk 1 0 0) (Vec3.mk 0 1 0)).x < 0 := by
  unfold computePhongShading
  dsimp only
  have hlen1 : vlen (Vec3.mk 1 0 0) = 1 := by
    unfold vlen
    dsimp only
    rw [show (1 : Real) * 1 + 0 * 0 + 0 * 0 = 1 by ring, Real.sqrt_one]
  have hlen2 : vlen (Vec3.mk 0 1 0) = 1 := by
    unfold vlen
    dsimp only
    rw [show (0 : Real) * 0 + 1 * 1 + 0 * 0 = 1 by ring, Real.sqrt_one]
  rw [hlen1, hlen2]
  have hd1 : vdot (Vec3.mk 1 0 0) (vneg (Vec3.mk 1 0 0)) = -1 := by
    norm_num [vdot, vneg]
  have hd2 : vdot (Vec3.mk 1 0 0) (Vec3.mk 0 1 0) = 0 := by
    norm_num [vdot]
  rw [hd1, hd2]
  have harg : (-1 : Real) / ((1 : Real) * 1 + 0.0001) = -(10000 / 10001) := by norm_num
  have harg2 : (0 : Real) / ((1 : Real) * 1 + 0.0001) = 0 := by norm_num
  rw [harg, harg2, Real.arccos_zero]
  have hcos : Real.cos (Real.arccos (-(10000 / 10001))) = -(10000 / 10001) :=
    Real.cos_arccos (by norm_num) (by norm_num)
  have hsin : Real.cos (Real.pi / 2 - Real.arccos (-(10000 / 10001))) =
      Real.sin (Real.arccos (-(10000 / 10001))) := Real.cos_pi_div_two_sub _
  rw [hcos, hsin]
  have hs0 : 0 <= Real.sin (Real.arccos (-(10000 / 10001))) := by
    rw [Real.sin_arccos]
    positivity
  have hs1 : Real.sin (Real.arccos (-(10000 / 10001))) <= 1 := by
    rw [Real.sin_arccos]
    calc Real.sqrt (1 - (-(10000 / 10001) : Real) ^ 2) <= Real.sqrt 1 :=
          Real.sqrt_le_sqrt (by nlinarith)
    _ = 1 := Real.sqrt_one
  have hp0 : (0 : Real) <= Real.sin (Real.arccos (-(10000 / 10001))) ^ (100 : Nat) :=
    pow_nonneg hs0 _
  have hp1 : Real.sin (Real.arccos (-(10000 / 10001))) ^ (100 : Nat) <= 1 :=
    pow_le_one₀ hs0 hs1
  show (0.1 + 0.7 * -(10000 / 10001) + 0.2 * Real.sin (Real.arccos (-(10000 / 10001))) ^ (100:Nat)) * 1 < 0
  nlinarith


/-- C6 counterexample: with volume shading enabled, a transfer table whose
single entry is (1,1,1,1) — every transfer-function color within [0,1] —
and a ray with tmin = tmax = 0, the 1D compositor returns a negative red
component, refuting the claim's unconditional [0,1] bound. -/
theorem c6_counterexample :
    (∀ c ∈ c6Renderer.config.tfColorMap, colorInUnit c) /\
    c6Ray.tmin <= c6Ray.tmax /\
    (backToFrontComposite c6Renderer c6Ray 1).x < 0 := by
  refine ⟨?_, by norm_num [c6Ray], ?_⟩
  . intro c hc
    have : c6Renderer.config.tfColorMap = [Vec4.mk 1 1 1 1] := rfl
    rw [this] at hc
    simp only [List.mem_singleton] at hc
    rw [hc]
    norm_num [colorInUnit]
  . have hcount : stepCount c6Ray.tmin c6Ray.tmax 1 = 1 := by
      show stepCount 0 0 1 = 1
      unfold stepCount
      rw [if_neg (by norm_num)]
      norm_num
    have hpos : rayAt c6Ray (c6Ray.tmax - ((0 : Nat) : Real) * 1) = Vec3.mk 0 0 0 := by
      norm_num [rayAt, c6Ray, vadd, vsmul, vzero3]
    have hval : getVoxelInterpolate c6Renderer.volume (Vec3.mk 0 0 0) = 0 := by
      show getVoxelNN c6Vol (Vec3.mk 0 0 0) = 0
      rw [getVoxelNN, if_neg (by norm_num [c6Vol])]
      have h : itrunc ((0 : Real) + 0.5) = 0 := by
        unfold itrunc
        rw [if_pos (by norm_num), Int.floor_eq_iff]
        norm_num
      show getVoxel c6Vol (itrunc ((0:Real) + 0.5)) (itrunc ((0:Real) + 0.5)) (itrunc ((0:Real) + 0.5)) = 0
      rw [h]
      norm_num [getVoxel, c6Vol]
    have htf : getTFValue c6Renderer 0 = Vec4.mk 1 1 1 1 := by
      unfold getTFValue
      have h1 : c6Renderer.config.tfColorMapIndexStart = 0 := rfl
      have h2 : c6Renderer.config.tfColorMapIndexRange = 1 := rfl
      have h3 : c6Renderer.config.tfColorMap = [Vec4.mk 1 1 1 1] := rfl
      rw [h1, h2, h3]
      norm_num
    have hgrad : c6Renderer.gradientVolume.getGradientVoxel (Vec3.mk 0 0 0) =
        GradientVoxel.mk (Vec3.mk 1 0 0) 1 := rfl
    have hsh : c6Renderer.config.volumeShading = true := rfl
    unfold backToFrontComposite
    dsimp only
    rw [hcount]
    rw [show List.range 1 = [0] from rfl]
    simp only [List.foldl_cons, List.foldl_nil]
    rw [hpos, hval, htf, hgrad, hsh]
    simp only [if_true]
    have hcam : c6Renderer.camera.position = Vec3.mk 1 0 0 := rfl
    have hdir : c6Ray.direction = Vec3.mk 0 1 0 := rfl
    rw [hcam, hdir]
    have hrgb : rgb (Vec4.mk 1 1 1 1) = Vec3.mk 1 1 1 := rfl
    rw [hrgb]
    have := phong_counterexample_neg
    set p := computePhongShading (Vec3.mk 1 1 1) (GradientVoxel.mk (Vec3.mk 1 0 0) 1)
      (Vec3.mk 1 0 0) (Vec3.mk 0 1 0) with hp
    show (vadd (vsmul (Vec4.mk 1 1 1 1).w p) (vsmul (1 - (Vec4.mk 1 1 1 1).w) vzero3)).x < 0
    unfold vadd vsmul vzero3
    dsimp only
    nlinarith [this]


/-- Folding over a flattened list equals the nested fold. -/
theorem foldl_flatMap {α β γ : Type} (l : List α) (f : α -> List γ) (g : β -> γ -> β) (b : β) :
    (l.flatMap f).foldl g b = l.foldl (fun b a => (f a).foldl g b) b := by
  induction l generalizing b with
  | nil => rfl
  | cons a l ih => simp [List.flatMap_cons, List.foldl_append, ih]

/-- The framebuffer slot as a natural-number expression. -/
theorem writeIndex_eq (resX : Int) (hres : 0 < resX) (x y : Nat) :
    writeIndex resX x y = resX.toNat * y + x := by
  unfold writeIndex
  have h2 : ((resX.toNat : Nat) : Int) = resX := Int.toNat_of_nonneg hres.le
  have h3 : (resX * (y : Int) + (x : Int)) = ((resX.toNat * y + x : Nat) : Int) := by
    push_cast
    rw [h2]
  rw [h3, Int.toNat_natCast]

/-- Distinct in-range pixels write distinct framebuffer slots. -/
theorem writeIndex_inj (resX : Int) (hres : 0 < resX) (p q : Nat × Nat)
    (hp : p.1 < resX.toNat) (hq : q.1 < resX.toNat)
    (h : writeIndex resX p.1 p.2 = writeIndex resX q.1 q.2) : p = q := by
  rw [writeIndex_eq resX hres, writeIndex_eq resX hres] at h
  have hN : 0 < resX.toNat := by omega
  have h2 : p.2 = q.2 := by
    rcases Nat.lt_trichotomy p.2 q.2 with hlt | heq | hgt
    . have hm : resX.toNat * (p.2 + 1) <= resX.toNat * q.2 := Nat.mul_le_mul_left _ hlt
      rw [Nat.mul_succ] at hm
      omega
    . exact heq
    . have hm : resX.toNat * (q.2 + 1) <= resX.toNat * p.2 := Nat.mul_le_mul_left _ hgt
      rw [Nat.mul_succ] at hm
      omega
  have h1 : p.1 = q.1 := by
    rw [h2] at h
    omega
  exact Prod.ext h1 h2

/-- A fold of pixel writes leaves a slot no pixel writes unchanged. -/
theorem fold_miss (r : Renderer) :
    ∀ (ps : List (Nat × Nat)) (fb : Nat -> Vec4) (i : Nat),
    (∀ p ∈ ps, Not (writeIndex r.config.resX p.1 p.2 = i /\ (renderPixel r p.1 p.2).isSome = true)) ->
    (ps.foldl (applyPixel r) fb) i = fb i := by
  intro ps
  induction ps with
  | nil => intro fb i _; rfl
  | cons q ps ih =>
    intro fb i h
    have hrest : ∀ p ∈ ps, Not (writeIndex r.config.resX p.1 p.2 = i /\
        (renderPixel r p.1 p.2).isSome = true) :=
      fun p hp => h p (List.mem_cons_of_mem q hp)
    show (ps.foldl (applyPixel r) (applyPixel r fb q)) i = fb i
    rw [ih (applyPixel r fb q) i hrest]
    unfold applyPixel
    cases hrp : renderPixel r q.1 q.2 with
    | none => rfl
    | some c =>
      have hq := h q (List.mem_cons_self q ps)
      rw [hrp] at hq
      simp only [Option.isSome_some, and_true] at hq
      simp only
      exact Function.update_noteq (Ne.symm hq) c fb

/-- A fold of pixel writes ends with the hitting pixel's color in its
slot. -/
theorem fold_hit (r : Renderer) (hres : 0 < r.config.resX) :
    ∀ (ps : List (Nat × Nat)) (fb : Nat -> Vec4) (p : Nat × Nat) (c : Vec4),
    p ∈ ps -> (∀ q ∈ ps, q.1 < r.config.resX.toNat) ->
    renderPixel r p.1 p.2 = some c ->
    (ps.foldl (applyPixel r) fb) (writeIndex r.config.resX p.1 p.2) = c := by
  intro ps
  induction ps with
  | nil => intro fb p c hp _ _; exact absurd hp (List.not_mem_nil p)
  | cons q ps ih =>
    intro fb p c hp hin hc
    show (ps.foldl (applyPixel r) (applyPixel r fb q)) (writeIndex r.config.resX p.1 p.2) = c
    by_cases hq : ∃ p' ∈ ps, writeIndex r.config.resX p'.1 p'.2 =
        writeIndex r.config.resX p.1 p.2 /\ (renderPixel r p'.1 p'.2).isSome = true
    . obtain ⟨p', hmem', hidx', hsome'⟩ := hq
      have hpeq : p' = p := writeIndex_inj r.config.resX hres p' p
        (hin p' (List.mem_cons_of_mem q hmem')) (hin p hp) hidx'
      rw [hpeq] at hmem'
      exact ih (applyPixel r fb q) p c hmem' (fun q' hq' => hin q' (List.mem_cons_of_mem q hq')) hc
    . push_neg at hq
      have hmiss : ∀ p' ∈ ps, Not (writeIndex r.config.resX p'.1 p'.2 =
          writeIndex r.config.resX p.1 p.2 /\ (renderPixel r p'.1 p'.2).isSome = true) := by
        intro p' hp' hand
        exact hq p' hp' hand.1 hand.2
      rw [fold_miss r ps (applyPixel r fb q) _ hmiss]
      have hpq : p = q := by
        rcases List.mem_cons.1 hp with h | h
        . exact h
        . exfalso
          exact (hq p h rfl) (by rw [hc]; rfl)
      rw [← hpq]
      unfold applyPixel
      rw [hc]
      simp only
      exact Function.update_same _ _ _


/-- The sequential loop as a single fold over its pixel list. -/
theorem renderSeq_eq_flat (r : Renderer) :
    renderSeq r = ((List.range r.config.resX.toNat).flatMap
      (fun x => (List.range r.config.resY.toNat).map (fun y => (x, y)))).foldl
      (applyPixel r) (fun _ => vzero4) := by
  unfold renderSeq
  rw [foldl_flatMap]
  simp only [List.foldl_map]

/-- The tiled loop as a single fold over the tiles' pixel lists. -/
theorem renderPar_eq_flat (r : Renderer) (tiles : List Tile) :
    renderPar r tiles = (tiles.flatMap (fun t => (List.range (t.y1 - t.y0)).flatMap
      (fun j => (List.range (t.x1 - t.x0)).map (fun i => (t.x0 + i, t.y0 + j))))).foldl
      (applyPixel r) (fun _ => vzero4) := by
  unfold renderPar renderTile
  rw [foldl_flatMap]
  congr 1
  funext fb t
  rw [foldl_flatMap]
  simp only [List.foldl_map]

/-- C5 (confirmed): for every tile list that covers exactly the screen
rectangle, the tiled parallel loop produces the same framebuffer as the
strictly sequential per-pixel loop: each pixel's color, `renderPixel`,
depends only on its own (x, y) and the read-only inputs, and distinct
in-range pixels write distinct framebuffer slots. -/
theorem render_tiles_eq_sequential (r : Renderer) (tiles : List Tile)
    (hres : 0 < r.config.resX)
    (hcov : ∀ x y : Nat, (∃ t ∈ tiles, t.x0 <= x /\ x < t.x1 /\ t.y0 <= y /\ y < t.y1) ↔
      (x < r.config.resX.toNat /\ y < r.config.resY.toNat)) :
    renderPar r tiles = renderSeq r := by
  rw [renderSeq_eq_flat, renderPar_eq_flat]
  have hmemS : ∀ p : Nat × Nat, p ∈ ((List.range r.config.resX.toNat).flatMap
      (fun x => (List.range r.config.resY.toNat).map (fun y => (x, y)))) ↔
      (p.1 < r.config.resX.toNat /\ p.2 < r.config.resY.toNat) := by
    intro p
    simp only [List.mem_flatMap, List.mem_map, List.mem_range]
    constructor
    . rintro ⟨x, hx, y, hy, rfl⟩
      exact ⟨hx, hy⟩
    . rintro ⟨hx, hy⟩
      exact ⟨p.1, hx, p.2, hy, rfl⟩
  have hmemP : ∀ p : Nat × Nat, p ∈ (tiles.flatMap (fun t => (List.range (t.y1 - t.y0)).flatMap
      (fun j => (List.range (t.x1 - t.x0)).map (fun i => (t.x0 + i, t.y0 + j))))) ↔
      (p.1 < r.config.resX.toNat /\ p.2 < r.config.resY.toNat) := by
    intro p
    rw [← hcov p.1 p.2]
    simp only [List.mem_flatMap, List.mem_map, List.mem_range]
    constructor
    . rintro ⟨t, ht, j, hj, i, hi, rfl⟩
      exact ⟨t, ht, by omega, by omega, by omega, by omega⟩
    . rintro ⟨t, ht, hx0, hx1, hy0, hy1⟩
      refine ⟨t, ht, p.2 - t.y0, by omega, p.1 - t.x0, by omega, ?_⟩
      have e1 : t.x0 + (p.1 - t.x0) = p.1 := by omega
      have e2 : t.y0 + (p.2 - t.y0) = p.2 := by omega
      rw [e1, e2]
  funext i
  by_cases hhit : ∃ p : Nat × Nat, (p.1 < r.config.resX.toNat /\ p.2 < r.config.resY.toNat) /\
      writeIndex r.config.resX p.1 p.2 = i /\ (renderPixel r p.1 p.2).isSome = true
  . obtain ⟨p, hinr, hidx, hsome⟩ := hhit
    obtain ⟨c, hc⟩ := Option.isSome_iff_exists.1 hsome
    rw [← hidx]
    rw [fold_hit r hres _ _ p c ((hmemP p).2 hinr)
      (fun q hq => ((hmemP q).1 hq).1) hc]
    rw [fold_hit r hres _ _ p c ((hmemS p).2 hinr)
      (fun q hq => ((hmemS q).1 hq).1) hc]
  . push_neg at hhit
    rw [fold_miss r _ _ i ?_, fold_miss r _ _ i ?_]
    . intro p hp hand
      exact (hhit p ((hmemS p).1 hp) hand.1) hand.2
    . intro p hp hand
      exact (hhit p ((hmemP p).1 hp) hand.1) hand.2


/-- C5 witness: a concrete 2x1 renderer with the whole screen as one
tile. -/
theorem render_tiles_eq_sequential_witness :
    renderPar c5Renderer [c5Tile] = renderSeq c5Renderer :=
  render_tiles_eq_sequential c5Renderer [c5Tile] (by norm_num [c5Renderer, cfg0]) (by
    intro x y
    simp only [List.mem_singleton]
    constructor
    . rintro ⟨t, rfl, h⟩
      simp only [c5Tile] at h
      simp only [c5Renderer, cfg0]
      omega
    . intro h
      simp only [c5Renderer, cfg0] at h
      exact ⟨c5Tile, rfl, by simp only [c5Tile]; omega⟩)

end VolVis

end
